import Mathlib

/-!
GNNBEM: dispatch layer (`common.h`) and 3D views (`array3D.h`).

A shallow embedding of the host-side launch helpers and the device kernels of
`src/cuda/include/common.h`, and of the `GArr3D` / `CArr3D` views of
`src/bem/cuda/include/array3D.h`.

Machine integers are natural numbers (unsigned types) or integers (`int`)
with the reduction modulo `2^32` / `2^64` written out wherever the C++
expression is evaluated in a fixed-width type.
-/

/-! ## Fixed-width arithmetic -/

namespace Machine

/-- Reduction to `uint32_t` / `unsigned int` (modulus `2^32`). -/
def u32 (x : Nat) : Nat := x % 4294967296

/-- Reduction to `size_t` (modulus `2^64`). -/
def u64 (x : Nat) : Nat := x % 18446744073709551616

/-- The ordinary C++ conversion of a signed integer to `uint32_t`. -/
def to_uint32 (x : Int) : Nat := (x % 4294967296).toNat

/-- The ordinary C++ conversion of a signed integer to `size_t`. -/
def to_size_t (x : Int) : Nat := (x % 18446744073709551616).toNat

/-- The conversion of an `unsigned int` value to `int` (two's complement). -/
def to_int32 (u : Nat) : Int :=
  if u % 4294967296 < 2147483648 then ((u % 4294967296 : Nat) : Int)
  else ((u % 4294967296 : Nat) : Int) - 4294967296

/-- The value of an `int` expression whose exact result is `x`: reduced into
`[-2^31, 2^31)` (two's complement wrap-around). -/
def wrap_int32 (x : Int) : Int := (x + 2147483648) % 4294967296 - 2147483648

end Machine

namespace nwob

open Machine

/-! ## CUDA built-ins -/

/-- CUDA `dim3` (also used for `uint3`): three `unsigned int` components. -/
structure dim3 where
  x : Nat
  y : Nat
  z : Nat
deriving DecidableEq

/-- CUDA `uint3`, the type of `threadIdx` and `blockIdx`. -/
abbrev uint3 := dim3

/-- All index triples below the extent `d`, componentwise. -/
def dim3.indices (d : dim3) : List uint3 :=
  (List.range d.x ×ˢ (List.range d.y ×ˢ List.range d.z)).map
    (fun p => { x := p.1, y := p.2.1, z := p.2.2 })

/-- A kernel launch `kernel<<<grid, block, shmem>>>(...)`: the kernel body runs
once for every `(blockIdx, threadIdx)` with `blockIdx` below `grid` and
`threadIdx` below `block`.  The body is given by the argument with which it
calls the user function, if it calls it.  The list collects these calls; its
order carries no meaning (the threads are unordered).  Device limits on the
grid and block extents are not in the source and are not modelled. -/
def launch {β : Type} (grid block : dim3) (shmem : Nat)
    (kernel : uint3 → uint3 → dim3 → Option β) : List β :=
  let _ := shmem
  (grid.indices ×ˢ block.indices).filterMap (fun p => kernel p.2 p.1 block)

/-! ## `common.h` -/

/-- `constexpr uint32_t n_threads_linear = 128;` -/
def n_threads_linear : Nat := 128

/-- `div_round_up<T>(val, divisor)` for an unsigned `T` of modulus `m`:
`(val + divisor - 1) / divisor`, the sum being formed in `T`.
A zero divisor is a fault in C++; here the quotient is then `0`, and the one
caller that can pass zero checks for it (see `parallel_for_aos`). -/
def div_round_up (m val divisor : Nat) : Nat :=
  ((val + divisor - 1) % m) / divisor

/-- `n_blocks_linear<T>(n_elements)`:
`(uint32_t)div_round_up(n_elements, (T)n_threads_linear)`. -/
def n_blocks_linear (m n_elements : Nat) : Nat :=
  u32 (div_round_up m n_elements (n_threads_linear % m))

/-- `linear_kernel<K, T>(kernel, n_elements, args...)`.  `T` is the caller's
own integer type, so the count is a signed value here; `m` is the modulus of
`T`.  The user kernel is given by the calls it makes for a launch geometry.
(For a signed `T` a sum `n_elements + 127` that overflows is undefined in C++;
the model reduces it modulo `m`.) -/
def linear_kernel {β : Type} (kernel : dim3 → dim3 → List β) (m : Nat)
    (n_elements : Int) : List β :=
  if n_elements ≤ 0 then []
  else kernel ⟨n_blocks_linear m n_elements.toNat, 1, 1⟩ ⟨n_threads_linear, 1, 1⟩

/-- `parallel_for_kernel<F>(n_elements, fun)`.  `threadIdx`, `blockIdx` and
`blockDim` have `unsigned int` components, so
`threadIdx.x + blockIdx.x * blockDim.x` is formed modulo `2^32` and only then
widened to `size_t`. -/
def parallel_for_kernel (threadIdx blockIdx : uint3) (blockDim : dim3)
    (n_elements : Nat) : Option Nat :=
  let i := u32 (threadIdx.x + u32 (blockIdx.x * blockDim.x))
  if i ≥ n_elements then none
  else some i

/-- `parallel_for<F>(shmem_size, n_elements, fun)`: the indices `i` with which
`fun(i)` is called. -/
def parallel_for (shmem_size n_elements : Nat) : List Nat :=
  if n_elements ≤ 0 then []
  else
    launch ⟨n_blocks_linear 18446744073709551616 n_elements, 1, 1⟩ ⟨n_threads_linear, 1, 1⟩
      shmem_size (fun threadIdx blockIdx blockDim =>
        parallel_for_kernel threadIdx blockIdx blockDim n_elements)

/-- `parallel_for_aos_kernel<F>(n_elements, n_dims, fun)`. -/
def parallel_for_aos_kernel (threadIdx blockIdx : uint3) (blockDim : dim3)
    (n_elements n_dims : Nat) : Option (Nat × Nat) :=
  let dim := threadIdx.x
  let elem := u32 (threadIdx.y + u32 (blockIdx.x * blockDim.y))
  if dim ≥ n_dims then none
  else if elem ≥ n_elements then none
  else some (elem, dim)

/-- `parallel_for_aos<F>(shmem_size, n_elements, n_dims, fun)`: the pairs
`(elem, dim)` with which `fun(elem, dim)` is called, or `none` when the host
code divides by zero (`n_threads = 0`). -/
def parallel_for_aos (shmem_size n_elements n_dims : Nat) : Option (List (Nat × Nat)) :=
  if n_elements ≤ 0 ∨ n_dims ≤ 0 then some []
  else
    let threads : dim3 := ⟨n_dims, div_round_up 4294967296 n_threads_linear n_dims, 1⟩
    let n_threads := u32 (threads.x * threads.y)
    if n_threads = 0 then none
    else
      let blocks : dim3 :=
        ⟨u32 (div_round_up 18446744073709551616 (u64 (n_elements * n_dims)) n_threads), 1, 1⟩
      some (launch blocks threads shmem_size (fun threadIdx blockIdx blockDim =>
        parallel_for_aos_kernel threadIdx blockIdx blockDim n_elements n_dims))

/-- `parallel_for_soa_kernel<F>(n_elements, n_dims, fun)`. -/
def parallel_for_soa_kernel (threadIdx blockIdx : uint3) (blockDim : dim3)
    (n_elements n_dims : Nat) : Option (Nat × Nat) :=
  let elem := u32 (threadIdx.x + u32 (blockIdx.x * blockDim.x))
  let dim := blockIdx.y
  if elem ≥ n_elements then none
  else if dim ≥ n_dims then none
  else some (elem, dim)

/-- The `dim3 blocks = {n_blocks_linear(n_elements), n_dims, 1}` that
`parallel_for_soa` computes. -/
def parallel_for_soa_blocks (n_elements n_dims : Nat) : dim3 :=
  ⟨n_blocks_linear 18446744073709551616 n_elements, n_dims, 1⟩

/-- `parallel_for_soa<F>(shmem_size, n_elements, n_dims, fun)`: the pairs
`(elem, dim)` with which `fun(elem, dim)` is called.  The source computes
`blocks` and then launches with `n_blocks_linear(n_elements)` as the grid,
that is with the grid `(n_blocks_linear(n_elements), 1, 1)`. -/
def parallel_for_soa (shmem_size n_elements n_dims : Nat) : List (Nat × Nat) :=
  if n_elements ≤ 0 ∨ n_dims ≤ 0 then []
  else
    let _blocks : dim3 := parallel_for_soa_blocks n_elements n_dims
    launch ⟨n_blocks_linear 18446744073709551616 n_elements, 1, 1⟩ ⟨n_threads_linear, 1, 1⟩
      shmem_size (fun threadIdx blockIdx blockDim =>
        parallel_for_soa_kernel threadIdx blockIdx blockDim n_elements n_dims)

end nwob

/-! ## `array3D.h` -/

namespace GNNBEM

open Machine

/-- CUDA `int3`. -/
structure int3 where
  x : Int
  y : Int
  z : Int
deriving DecidableEq

/-- CUDA `make_int3`. -/
def make_int3 (x y z : Int) : int3 := ⟨x, y, z⟩

/-- Modelled from the spec: the device-resident Linear Buffer `GArr<T>`
(its header is not among the sources): a contiguous run of elements. -/
abbrev GArr (α : Type) := List α

/-- Modelled from the spec: the host-resident Linear Buffer `CArr<T>`
(its header is not among the sources): a contiguous run of elements. -/
abbrev CArr (α : Type) := List α

/-- Modelled from the spec: Linear Buffer `resize(n)`, which reallocates the
buffer to exactly `n` elements; old contents are not kept. -/
def LinearBuffer.resize {α : Type} [Inhabited α] (_buf : List α) (n : Int) : List α :=
  List.replicate n.toNat default

/-- Modelled from the spec: Linear Buffer `assign(src)`, a full copy of the
source buffer, within or across memory domains. -/
def LinearBuffer.assign {α : Type} (_buf src : List α) : List α := src

/-- Modelled from the spec: Linear Buffer `clear()`, which releases the buffer
and leaves it with no elements. -/
def LinearBuffer.clear {α : Type} (_buf : List α) : List α := []

/-- Modelled from the spec: Linear Buffer `reset()`, which fills every element
with the zero of the element type. -/
def LinearBuffer.reset {α : Type} [Zero α] (buf : List α) : List α :=
  List.replicate buf.length 0

/-- Modelled from the spec: Linear Buffer `reset_minus_one()`, which fills
every element with the marker `-1`. -/
def LinearBuffer.reset_minus_one {α : Type} [One α] [Neg α] (buf : List α) : List α :=
  List.replicate buf.length (-1)

/-- Modelled from the spec: the non-owning 2D view (`GArr2D<T>` / `CArr2D<T>`
built from a pointer, `array2D.h` is not among the sources): a borrowed
pointer, kept as its distance `base` from the parent's `data.data()`, and a
shape. -/
structure View2D where
  base : Nat
  rows : Int
  cols : Int
deriving DecidableEq

/-- Modelled from the spec: the 2D offset formula `offset(i,j) = i·cols + j`. -/
def View2D.offset (s : View2D) (i j : Nat) : Int := i * s.cols + j

/-- The class `GArr3D<T>`: its data members. -/
structure GArr3D (α : Type) where
  data : GArr α
  batchs : Int
  rows : Int
  cols : Int
  size : int3

/-- The class `CArr3D<T>`: its data members. -/
structure CArr3D (α : Type) where
  data : CArr α
  batchs : Int
  rows : Int
  cols : Int
  size : int3

/-- The scalar members of a view before a constructor body runs: they have no
initialiser, so they hold whatever the storage held. -/
structure Indeterminate where
  batchs : Int
  rows : Int
  cols : Int
  size : int3

/-- The offset expression `b_i * rows * cols + i * cols + j` shared by
`operator()`, `index` and (with `i = j = 0`) `operator[]`: `b_i`, `i`, `j` are
`uint`, so `rows` and `cols` are converted to `unsigned int` and every product
and sum is formed modulo `2^32`. -/
def offset_expr (rows cols : Int) (b_i i j : Nat) : Nat :=
  u32 (u32 (u32 (u32 (b_i * to_uint32 rows) * to_uint32 cols) + u32 (i * to_uint32 cols)) + j)

/-- The pointer offset `id * rows * cols` of `operator[]`, in `unsigned int`. -/
def batch_offset (rows cols : Int) (id : Nat) : Nat :=
  u32 (u32 (id * to_uint32 rows) * to_uint32 cols)

namespace GArr3D

variable {α : Type}

/-- A `GArr3D` object as a constructor body finds it: `data` default
constructed (empty), the scalar members indeterminate. -/
def raw (u : Indeterminate) : GArr3D α :=
  { data := [], batchs := u.batchs, rows := u.rows, cols := u.cols, size := u.size }

/-- `void resize(int batchs, int rows, int cols)`; the buffer length
`rows * cols * batchs` is an `int` expression. -/
def resize [Inhabited α] (self : GArr3D α) (batchs rows cols : Int) : GArr3D α :=
  { rows := rows, cols := cols, batchs := batchs,
    size := make_int3 batchs rows cols,
    data := LinearBuffer.resize self.data (wrap_int32 (wrap_int32 (rows * cols) * batchs)) }

/-- `void resize(int3 size)` -/
def resize3 [Inhabited α] (self : GArr3D α) (size : int3) : GArr3D α :=
  self.resize size.x size.y size.z

/-- `GArr3D() { resize(0, 0, 0); }` -/
def ctor [Inhabited α] (u : Indeterminate) : GArr3D α := (raw u).resize 0 0 0

/-- `GArr3D(int batchs, int rows, int cols)` -/
def ctor_shape [Inhabited α] (u : Indeterminate) (batchs rows cols : Int) : GArr3D α :=
  (raw u).resize batchs rows cols

/-- `void assign(const CArr3D<T> &A)` -/
def assign_host (self : GArr3D α) (A : CArr3D α) : GArr3D α :=
  { rows := A.rows, cols := A.cols, batchs := A.batchs,
    size := make_int3 A.batchs A.rows A.cols,
    data := LinearBuffer.assign self.data A.data }

/-- `void assign(const GArr3D<T> &A)` -/
def assign (self : GArr3D α) (A : GArr3D α) : GArr3D α :=
  { rows := A.rows, cols := A.cols, batchs := A.batchs,
    size := make_int3 A.batchs A.rows A.cols,
    data := LinearBuffer.assign self.data A.data }

/-- `GArr3D(CArr3D<T> &A) { this->assign(A); }` -/
def ctor_host (u : Indeterminate) (A : CArr3D α) : GArr3D α := (raw u).assign_host A

/-- `void clear() { data.clear(); }` -/
def clear (self : GArr3D α) : GArr3D α :=
  { self with data := LinearBuffer.clear self.data }

/-- `void reset() { data.reset(); }` -/
def reset [Zero α] (self : GArr3D α) : GArr3D α :=
  { self with data := LinearBuffer.reset self.data }

/-- `void reset_minus_one() { data.reset_minus_one(); }` -/
def reset_minus_one [One α] [Neg α] (self : GArr3D α) : GArr3D α :=
  { self with data := LinearBuffer.reset_minus_one self.data }

/-- `operator()(uint b_i, uint i, uint j)`, read: the element
`data[b_i * rows * cols + i * cols + j]`; no bounds check in the source, an
offset outside the buffer has no defined result. -/
def get (self : GArr3D α) (b_i i j : Nat) : Option α :=
  self.data[offset_expr self.rows self.cols b_i i j]?

/-- `int index(uint b_i, uint i, uint j)` -/
def index (self : GArr3D α) (b_i i j : Nat) : Int :=
  to_int32 (offset_expr self.rows self.cols b_i i j)

/-- `operator[](unsigned int id)`:
`GArr2D<T>(data.data() + id * rows * cols, rows, cols)`. -/
def batch (self : GArr3D α) (id : Nat) : View2D :=
  { base := batch_offset self.rows self.cols id, rows := self.rows, cols := self.cols }

/-- A write of `x` through cell `(i, j)` of the sub-view `s` of `self`: the
buffer cell at distance `s.base + s.offset i j` from `data.data()`. -/
def write_through (self : GArr3D α) (s : View2D) (i j : Nat) (x : α) : GArr3D α :=
  { self with data := self.data.set (s.base + (s.offset i j).toNat) x }

end GArr3D

namespace CArr3D

variable {α : Type}

/-- A `CArr3D` object as a constructor body finds it: `data` default
constructed (empty), the scalar members indeterminate. -/
def raw (u : Indeterminate) : CArr3D α :=
  { data := [], batchs := u.batchs, rows := u.rows, cols := u.cols, size := u.size }

/-- `CArr3D() {}` -/
def ctor (u : Indeterminate) : CArr3D α := raw u

/-- `void resize(int batchs, int rows, int cols)`; the buffer length
`rows * cols * batchs` is an `int` expression. -/
def resize [Inhabited α] (self : CArr3D α) (batchs rows cols : Int) : CArr3D α :=
  { rows := rows, cols := cols, batchs := batchs,
    size := make_int3 batchs rows cols,
    data := LinearBuffer.resize self.data (wrap_int32 (wrap_int32 (rows * cols) * batchs)) }

/-- `CArr3D(int batchs, int rows, int cols)` -/
def ctor_shape [Inhabited α] (u : Indeterminate) (batchs rows cols : Int) : CArr3D α :=
  (raw u).resize batchs rows cols

/-- `void assign(GArr3D<T> &A)` -/
def assign (self : CArr3D α) (A : GArr3D α) : CArr3D α :=
  { rows := A.rows, cols := A.cols, batchs := A.batchs,
    size := make_int3 A.batchs A.rows A.cols,
    data := LinearBuffer.assign self.data A.data }

/-- `CArr3D(GArr3D<T> &A) { this->assign(A); }` -/
def ctor_device (u : Indeterminate) (A : GArr3D α) : CArr3D α := (raw u).assign A

/-- `void clear() { data.clear(); }` -/
def clear (self : CArr3D α) : CArr3D α :=
  { self with data := LinearBuffer.clear self.data }

/-- `void reset() { data.reset(); }` -/
def reset [Zero α] (self : CArr3D α) : CArr3D α :=
  { self with data := LinearBuffer.reset self.data }

/-- `void reset_minus_one() { data.reset_minus_one(); }` -/
def reset_minus_one [One α] [Neg α] (self : CArr3D α) : CArr3D α :=
  { self with data := LinearBuffer.reset_minus_one self.data }

/-- `operator()(uint b_i, uint i, uint j)`, read: the element
`data[b_i * rows * cols + i * cols + j]`; no bounds check in the source, an
offset outside the buffer has no defined result. -/
def get (self : CArr3D α) (b_i i j : Nat) : Option α :=
  self.data[offset_expr self.rows self.cols b_i i j]?

/-- `int index(uint b_i, uint i, uint j)` -/
def index (self : CArr3D α) (b_i i j : Nat) : Int :=
  to_int32 (offset_expr self.rows self.cols b_i i j)

/-- `operator[](unsigned int id)`:
`CArr2D<T>(data.data() + id * rows * cols, rows, cols)`. -/
def batch (self : CArr3D α) (id : Nat) : View2D :=
  { base := batch_offset self.rows self.cols id, rows := self.rows, cols := self.cols }

/-- A write of `x` through cell `(i, j)` of the sub-view `s` of `self`: the
buffer cell at distance `s.base + s.offset i j` from `data.data()`. -/
def write_through (self : CArr3D α) (s : View2D) (i j : Nat) (x : α) : CArr3D α :=
  { self with data := self.data.set (s.base + (s.offset i j).toNat) x }

/-- `GArr3D<T> gpu() { return GArr3D<T>(*this); }` -/
def gpu (self : CArr3D α) (u : Indeterminate) : GArr3D α := GArr3D.ctor_host u self

end CArr3D

/-- `CArr3D<T> cpu() { return CArr3D<T>(*this); }` -/
def GArr3D.cpu {α : Type} (self : GArr3D α) (u : Indeterminate) : CArr3D α :=
  CArr3D.ctor_device u self

/-- The shape/buffer predicate of a device view: the buffer holds exactly
`batchs * rows * cols` elements. -/
def GArr3D.shape_matches {α : Type} (v : GArr3D α) : Prop :=
  (v.data.length : Int) = v.batchs * v.rows * v.cols

/-- The shape/buffer predicate of a host view: the buffer holds exactly
`batchs * rows * cols` elements. -/
def CArr3D.shape_matches {α : Type} (v : CArr3D α) : Prop :=
  (v.data.length : Int) = v.batchs * v.rows * v.cols

instance {α : Type} (v : GArr3D α) : Decidable v.shape_matches := by
  unfold GArr3D.shape_matches; infer_instance

instance {α : Type} (v : CArr3D α) : Decidable v.shape_matches := by
  unfold CArr3D.shape_matches; infer_instance

/-- `T &operator()(uint b_i, uint i, uint j)`, write: stores `x` in
`data[b_i * rows * cols + i * cols + j]`. -/
def GArr3D.put {α : Type} (self : GArr3D α) (b_i i j : Nat) (x : α) : GArr3D α :=
  { self with data := self.data.set (offset_expr self.rows self.cols b_i i j) x }

/-- `T &operator()(uint b_i, uint i, uint j)`, write: stores `x` in
`data[b_i * rows * cols + i * cols + j]`. -/
def CArr3D.put {α : Type} (self : CArr3D α) (b_i i j : Nat) (x : α) : CArr3D α :=
  { self with data := self.data.set (offset_expr self.rows self.cols b_i i j) x }

/-! ### Views as objects in memory

The definitions above take a view by value: its members together with the
elements of its buffer.  To say which storage a member function writes, the
definitions below place the buffers in a memory and let a view object hold
the address of the storage its buffer owns. -/

/-- Modelled from the spec: the two memory domains in which Linear Buffers
live, host and device, which are disjoint; each maps the address of a buffer's
storage to the elements stored there (`array.h` is not among the sources). -/
structure Memory (α : Type) where
  device : Nat → List α
  host : Nat → List α

/-- Modelled from the spec: Linear Buffer `assign(src)` from a device buffer to
a device buffer, a deep copy: the destination keeps its own storage, at the
address `dst`, and receives the elements stored at `src`. -/
def Memory.assign_device_device {α : Type} (m : Memory α) (dst src : Nat) : Memory α :=
  { m with device :=
      Function.update m.device dst (LinearBuffer.assign (m.device dst) (m.device src)) }

/-- Modelled from the spec: Linear Buffer `assign(src)` from a host buffer to a
device buffer, a deep copy across the memory domains. -/
def Memory.assign_device_host {α : Type} (m : Memory α) (dst src : Nat) : Memory α :=
  { m with device :=
      Function.update m.device dst (LinearBuffer.assign (m.device dst) (m.host src)) }

/-- Modelled from the spec: Linear Buffer `assign(src)` from a device buffer to
a host buffer, a deep copy across the memory domains. -/
def Memory.assign_host_device {α : Type} (m : Memory α) (dst src : Nat) : Memory α :=
  { m with host :=
      Function.update m.host dst (LinearBuffer.assign (m.host dst) (m.device src)) }

/-- Modelled from the spec: a Linear Buffer member function that changes the
elements of the device buffer at `buf` (`resize`, `clear`, an element write):
it rewrites the storage that this buffer owns and no other. -/
def Memory.store_device {α : Type} (m : Memory α) (buf : Nat) (elems : List α) : Memory α :=
  { m with device := Function.update m.device buf elems }

/-- Modelled from the spec: a Linear Buffer member function that changes the
elements of the host buffer at `buf` (`resize`, `clear`, an element write):
it rewrites the storage that this buffer owns and no other. -/
def Memory.store_host {α : Type} (m : Memory α) (buf : Nat) (elems : List α) : Memory α :=
  { m with host := Function.update m.host buf elems }

/-- A `GArr3D<T>` object: its scalar members, and for the member `data` the
address of the storage in device memory that this buffer owns. -/
structure GArr3DObj where
  data : Nat
  batchs : Int
  rows : Int
  cols : Int
  size : int3
deriving DecidableEq

/-- A `CArr3D<T>` object: its scalar members, and for the member `data` the
address of the storage in host memory that this buffer owns. -/
structure CArr3DObj where
  data : Nat
  batchs : Int
  rows : Int
  cols : Int
  size : int3
deriving DecidableEq

/-- The view that a `GArr3D` object is in a memory: its scalar members with the
elements stored at the address of its buffer. -/
def GArr3DObj.view {α : Type} (o : GArr3DObj) (m : Memory α) : GArr3D α :=
  { data := m.device o.data, batchs := o.batchs, rows := o.rows, cols := o.cols,
    size := o.size }

/-- The view that a `CArr3D` object is in a memory: its scalar members with the
elements stored at the address of its buffer. -/
def CArr3DObj.view {α : Type} (o : CArr3DObj) (m : Memory α) : CArr3D α :=
  { data := m.host o.data, batchs := o.batchs, rows := o.rows, cols := o.cols,
    size := o.size }

/-- `void GArr3D::assign(const GArr3D<T> &A)` on objects: the scalar members
are set from `A`, and `data.assign(A.data)` copies between the two buffers.
The result is the destination object and the memory after the call; `A` is
passed by reference and none of its members is written. -/
def GArr3DObj.assign {α : Type} (self A : GArr3DObj) (m : Memory α) : GArr3DObj × Memory α :=
  ({ data := self.data, rows := A.rows, cols := A.cols, batchs := A.batchs,
     size := make_int3 A.batchs A.rows A.cols },
   m.assign_device_device self.data A.data)

/-- `void GArr3D::assign(const CArr3D<T> &A)` on objects. -/
def GArr3DObj.assign_host {α : Type} (self : GArr3DObj) (A : CArr3DObj) (m : Memory α) :
    GArr3DObj × Memory α :=
  ({ data := self.data, rows := A.rows, cols := A.cols, batchs := A.batchs,
     size := make_int3 A.batchs A.rows A.cols },
   m.assign_device_host self.data A.data)

/-- `void CArr3D::assign(GArr3D<T> &A)` on objects. -/
def CArr3DObj.assign {α : Type} (self : CArr3DObj) (A : GArr3DObj) (m : Memory α) :
    CArr3DObj × Memory α :=
  ({ data := self.data, rows := A.rows, cols := A.cols, batchs := A.batchs,
     size := make_int3 A.batchs A.rows A.cols },
   m.assign_host_device self.data A.data)

/-- `void GArr3D::resize(int batchs, int rows, int cols)` on an object. -/
def GArr3DObj.resize {α : Type} [Inhabited α] (self : GArr3DObj) (batchs rows cols : Int)
    (m : Memory α) : GArr3DObj × Memory α :=
  ({ data := self.data, rows := rows, cols := cols, batchs := batchs,
     size := make_int3 batchs rows cols },
   m.store_device self.data
     (LinearBuffer.resize (m.device self.data) (wrap_int32 (wrap_int32 (rows * cols) * batchs))))

/-- `void GArr3D::clear() { data.clear(); }` on an object. -/
def GArr3DObj.clear {α : Type} (self : GArr3DObj) (m : Memory α) : GArr3DObj × Memory α :=
  (self, m.store_device self.data (LinearBuffer.clear (m.device self.data)))

/-- `T &GArr3D::operator()(uint b_i, uint i, uint j)`, write, on an object. -/
def GArr3DObj.put {α : Type} (self : GArr3DObj) (b_i i j : Nat) (x : α) (m : Memory α) :
    GArr3DObj × Memory α :=
  (self, m.store_device self.data
    ((m.device self.data).set (offset_expr self.rows self.cols b_i i j) x))

/-- `void CArr3D::resize(int batchs, int rows, int cols)` on an object. -/
def CArr3DObj.resize {α : Type} [Inhabited α] (self : CArr3DObj) (batchs rows cols : Int)
    (m : Memory α) : CArr3DObj × Memory α :=
  ({ data := self.data, rows := rows, cols := cols, batchs := batchs,
     size := make_int3 batchs rows cols },
   m.store_host self.data
     (LinearBuffer.resize (m.host self.data) (wrap_int32 (wrap_int32 (rows * cols) * batchs))))

/-- `void CArr3D::clear() { data.clear(); }` on an object. -/
def CArr3DObj.clear {α : Type} (self : CArr3DObj) (m : Memory α) : CArr3DObj × Memory α :=
  (self, m.store_host self.data (LinearBuffer.clear (m.host self.data)))

/-- `T &CArr3D::operator()(uint b_i, uint i, uint j)`, write, on an object. -/
def CArr3DObj.put {α : Type} (self : CArr3DObj) (b_i i j : Nat) (x : α) (m : Memory α) :
    CArr3DObj × Memory α :=
  (self, m.store_host self.data
    ((m.host self.data).set (offset_expr self.rows self.cols b_i i j) x))

/-- The character written by `std::endl`. -/
def endl : Char := Char.ofNat 10

/-- The character of the string literal `" "`. -/
def space : Char := Char.ofNat 32

/-- The text of a sequence of stream insertions, each of which may have no
defined result (an element read outside the buffer): their concatenation, if
all of them are defined. -/
def concat_writes : List (Option (List Char)) → Option (List Char)
  | [] => some []
  | none :: _ => none
  | some s :: rest => (concat_writes rest).map (fun t => s ++ t)

/-- `operator<<(std::ostream &os, const CArr3D<T> &mat)`: the text appended to
the stream.  `fmt` is the stream insertion of one element of type `T`.  The
loop counters are `int`s that start at 0, so their conversion to the `uint`
parameters of `operator()` is the identity. -/
def CArr3D.print {α : Type} (fmt : α → List Char) (mat : CArr3D α) : Option (List Char) :=
  concat_writes ((List.range mat.batchs.toNat).map fun i =>
    (concat_writes ((List.range mat.rows.toNat).map fun j =>
      (concat_writes ((List.range mat.cols.toNat).map fun k =>
        (mat.get i j k).map (fun x => fmt x ++ [space]))).map
          (fun row => row ++ [endl]))).map
            (fun batch => batch ++ [endl]))

/-- `operator<<(std::ostream &os, GArr3D<T> &mat)`: `os << mat.cpu()`. -/
def GArr3D.print {α : Type} (fmt : α → List Char) (mat : GArr3D α) (u : Indeterminate) :
    Option (List Char) :=
  CArr3D.print fmt (mat.cpu u)

/-- The lines of a text: the runs of characters between `endl`s, each line
ended by its `endl` (characters after the last `endl` form a last line). -/
def lines : List Char → List (List Char)
  | [] => []
  | c :: rest =>
    if c = endl then [] :: lines rest
    else
      match lines rest with
      | [] => [[c]]
      | l :: ls => (c :: l) :: ls

/-- The text made of the given lines, each ended by `endl`. -/
def unlines (ls : List (List Char)) : List Char :=
  ls.flatMap (fun l => l ++ [endl])

/-- The text of one row of cells: every element followed by one space. -/
def row_text {α : Type} (fmt : α → List Char) (cells : List α) : List Char :=
  cells.flatMap (fun x => fmt x ++ [space])

/-- The cells of row `i` of batch `b` in a row-major buffer of shape
`B × R × C`: the `C` elements from offset `(b * R + i) * C` on. -/
def row_cells {α : Type} (data : List α) (R C b i : Nat) : List α :=
  (data.drop ((b * R + i) * C)).take C

/-- The lines of the row-major dump of a buffer of shape `B × R × C`: batch
after batch, the `R` rows of the batch, one line each, and then one empty
line. -/
def dump_lines {α : Type} (fmt : α → List Char) (data : List α) (B R C : Nat) :
    List (List Char) :=
  (List.range B).flatMap fun b =>
    (List.range R).map (fun i => row_text fmt (row_cells data R C b i)) ++ [[]]

end GNNBEM

/-! ## Launch geometry: general facts -/

namespace nwob

open Machine

theorem u32_lt (x : Nat) : u32 x < 4294967296 := by
  unfold u32; omega

theorem mem_indices (d : dim3) (u : uint3) :
    u ∈ d.indices ↔ u.x < d.x ∧ u.y < d.y ∧ u.z < d.z := by
  unfold dim3.indices
  simp only [List.mem_map, List.mem_product, List.mem_range, Prod.exists]
  constructor
  · rintro ⟨a, b, c, ⟨ha, hb, hc⟩, rfl⟩
    exact ⟨ha, hb, hc⟩
  · rintro ⟨h1, h2, h3⟩
    exact ⟨u.x, u.y, u.z, ⟨h1, h2, h3⟩, rfl⟩

theorem nodup_indices (d : dim3) : d.indices.Nodup := by
  unfold dim3.indices
  refine List.Nodup.map ?_ ((List.nodup_range _).product ((List.nodup_range _).product
    (List.nodup_range _)))
  rintro ⟨a, b, c⟩ ⟨a2, b2, c2⟩ h
  simp only [dim3.mk.injEq] at h
  obtain ⟨h1, h2, h3⟩ := h
  subst h1 h2 h3
  rfl

theorem mem_launch {β : Type} (grid block : dim3) (shmem : Nat)
    (kernel : uint3 → uint3 → dim3 → Option β) (b : β) :
    b ∈ launch grid block shmem kernel ↔
      ∃ blockIdx threadIdx, blockIdx ∈ grid.indices ∧ threadIdx ∈ block.indices ∧
        kernel threadIdx blockIdx block = some b := by
  unfold launch
  simp only [List.mem_filterMap, List.mem_product, Prod.exists]
  constructor
  · rintro ⟨bi, ti, ⟨h1, h2⟩, h3⟩
    exact ⟨bi, ti, h1, h2, h3⟩
  · rintro ⟨bi, ti, h1, h2, h3⟩
    exact ⟨bi, ti, ⟨h1, h2⟩, h3⟩

theorem count_filterMap_eq_length_filter {α β : Type} [DecidableEq β] [BEq β] [LawfulBEq β]
    (f : α → Option β) (b : β) (l : List α) :
    List.count b (l.filterMap f) = (l.filter (fun t => decide (f t = some b))).length := by
  induction l with
  | nil => simp
  | cons a l ih =>
    cases h : f a with
    | none => simp [List.filterMap_cons, List.filter_cons, h, ih]
    | some c =>
      by_cases hc : c = b
      · subst hc
        simp [List.filterMap_cons, List.filter_cons, h, ih]
      · simp [List.filterMap_cons, List.filter_cons, h, ih, List.count_cons, hc]

theorem two_le_length_of_mem {α : Type} {l : List α} {a b : α}
    (ha : a ∈ l) (hb : b ∈ l) (h : a ≠ b) : 2 ≤ l.length := by
  match l, ha, hb with
  | [], ha, _ => simp at ha
  | [x], ha, hb =>
    simp only [List.mem_singleton] at ha hb
    exact absurd (ha.trans hb.symm) h
  | _ :: _ :: _, _, _ => simp

theorem length_le_one_of_all_eq {α : Type} {l : List α} (t : α)
    (hn : l.Nodup) (h : ∀ x ∈ l, x = t) : l.length ≤ 1 := by
  match l, hn, h with
  | [], _, _ => simp
  | [_], _, _ => simp
  | x :: y :: _, hn, h =>
    have hx : x = t := h x (by simp)
    have hy : y = t := h y (by simp)
    subst hx hy
    simp at hn

/-- A value produced by two different threads of a launch is produced at least
twice. -/
theorem two_le_count_launch {β : Type} [DecidableEq β] [BEq β] [LawfulBEq β]
    (grid block : dim3) (shmem : Nat)
    (kernel : uint3 → uint3 → dim3 → Option β) (b : β)
    (b1 t1 b2 t2 : uint3) (hb1 : b1 ∈ grid.indices) (ht1 : t1 ∈ block.indices)
    (hb2 : b2 ∈ grid.indices) (ht2 : t2 ∈ block.indices) (hne : (b1, t1) ≠ (b2, t2))
    (h1 : kernel t1 b1 block = some b) (h2 : kernel t2 b2 block = some b) :
    2 ≤ List.count b (launch grid block shmem kernel) := by
  unfold launch
  rw [count_filterMap_eq_length_filter]
  refine two_le_length_of_mem (a := (b1, t1)) (b := (b2, t2)) ?_ ?_ hne
  · simp only [List.mem_filter, List.mem_product, decide_eq_true_eq]
    exact ⟨⟨hb1, ht1⟩, h1⟩
  · simp only [List.mem_filter, List.mem_product, decide_eq_true_eq]
    exact ⟨⟨hb2, ht2⟩, h2⟩

/-- A value produced by exactly one thread of a launch is produced exactly
once. -/
theorem count_launch_eq_one {β : Type} [DecidableEq β] [BEq β] [LawfulBEq β]
    (grid block : dim3) (shmem : Nat)
    (kernel : uint3 → uint3 → dim3 → Option β) (b : β)
    (b1 t1 : uint3) (hb1 : b1 ∈ grid.indices) (ht1 : t1 ∈ block.indices)
    (h1 : kernel t1 b1 block = some b)
    (huniq : ∀ b2 t2, b2 ∈ grid.indices → t2 ∈ block.indices →
      kernel t2 b2 block = some b → b2 = b1 ∧ t2 = t1) :
    List.count b (launch grid block shmem kernel) = 1 := by
  unfold launch
  rw [count_filterMap_eq_length_filter]
  apply le_antisymm
  · refine length_le_one_of_all_eq (b1, t1) ?_ ?_
    · exact ((nodup_indices grid).product (nodup_indices block)).filter _
    · rintro ⟨b2, t2⟩ hx
      simp only [List.mem_filter, List.mem_product, decide_eq_true_eq] at hx
      obtain ⟨h3, h4⟩ := huniq b2 t2 hx.1.1 hx.1.2 hx.2
      rw [h3, h4]
  · refine List.length_pos_of_mem (a := (b1, t1)) ?_
    simp only [List.mem_filter, List.mem_product, decide_eq_true_eq]
    exact ⟨⟨hb1, ht1⟩, h1⟩

/-- A value produced by no thread of a launch is not produced. -/
theorem count_launch_eq_zero {β : Type} [BEq β] [LawfulBEq β]
    (grid block : dim3) (shmem : Nat)
    (kernel : uint3 → uint3 → dim3 → Option β) (b : β)
    (hnone : ∀ b2 t2, b2 ∈ grid.indices → t2 ∈ block.indices →
      kernel t2 b2 block ≠ some b) :
    List.count b (launch grid block shmem kernel) = 0 := by
  rw [List.count_eq_zero, mem_launch]
  rintro ⟨b2, t2, h1, h2, h3⟩
  exact hnone b2 t2 h1 h2 h3

/-! ## Linear dispatch -/

theorem n_blocks_linear_size_t (n : Nat) (h : n + 127 < 18446744073709551616) :
    n_blocks_linear 18446744073709551616 n = u32 ((n + 127) / 128) := by
  unfold n_blocks_linear div_round_up n_threads_linear
  have h1 : 128 % 18446744073709551616 = 128 := by decide
  rw [h1]
  have h2 : n + 128 - 1 = n + 127 := by omega
  rw [h2, Nat.mod_eq_of_lt h]

theorem parallel_for_eq_launch (shmem_size n : Nat) (hn : 0 < n) :
    parallel_for shmem_size n =
      launch ⟨n_blocks_linear 18446744073709551616 n, 1, 1⟩ ⟨n_threads_linear, 1, 1⟩
        shmem_size (fun threadIdx blockIdx blockDim =>
          parallel_for_kernel threadIdx blockIdx blockDim n) := by
  unfold parallel_for
  rw [if_neg (by omega)]

theorem parallel_for_kernel_eq_some (t b d : dim3) (n i : Nat) :
    parallel_for_kernel t b d n = some i ↔
      u32 (t.x + u32 (b.x * d.x)) = i ∧ i < n := by
  unfold parallel_for_kernel
  simp only [ge_iff_le]
  split_ifs with h
  · constructor
    · intro h2; cases h2
    · rintro ⟨h2, h3⟩; omega
  · constructor
    · intro h2
      simp only [Option.some.injEq] at h2
      exact ⟨h2, by omega⟩
    · rintro ⟨h2, _⟩
      rw [h2]

/-- Linear dispatch on the range where the 32-bit index does not wrap
(`n ≤ 2^32`): `fun(i)` is called exactly once for `i < n` and never for
`i ≥ n`. -/
theorem parallel_for_count (shmem_size n : Nat) (hn : 0 < n) (hle : n ≤ 4294967296)
    (i : Nat) :
    List.count i (parallel_for shmem_size n) = if i < n then 1 else 0 := by
  rw [parallel_for_eq_launch shmem_size n hn, n_blocks_linear_size_t n (by omega)]
  have hnb : u32 ((n + 127) / 128) = (n + 127) / 128 := by unfold u32; omega
  rw [hnb]
  split_ifs with hi
  · refine count_launch_eq_one _ _ _ _ i ⟨i / 128, 0, 0⟩ ⟨i % 128, 0, 0⟩ ?_ ?_ ?_ ?_
    · rw [mem_indices]; dsimp only; omega
    · rw [mem_indices]; unfold n_threads_linear; dsimp only; omega
    · rw [parallel_for_kernel_eq_some]
      unfold u32 n_threads_linear; dsimp only
      omega
    · rintro ⟨bx, bY, bz⟩ ⟨tx, tY, tz⟩ hb ht hk
      rw [mem_indices] at hb ht
      rw [parallel_for_kernel_eq_some] at hk
      unfold u32 n_threads_linear at *
      dsimp only at hb ht hk
      have h1 : bx = i / 128 := by omega
      have h2 : tx = i % 128 := by omega
      have h3 : bY = 0 := by omega
      have h4 : bz = 0 := by omega
      have h5 : tY = 0 := by omega
      have h6 : tz = 0 := by omega
      subst h1 h2 h3 h4 h5 h6
      exact ⟨rfl, rfl⟩
  · refine count_launch_eq_zero _ _ _ _ i ?_
    intro b2 t2 _ _ hk
    rw [parallel_for_kernel_eq_some] at hk
    omega

/-! ## Structure-of-arrays dispatch -/

theorem parallel_for_soa_eq_launch (shmem_size n d : Nat) (hn : 0 < n) (hd : 0 < d) :
    parallel_for_soa shmem_size n d =
      launch ⟨n_blocks_linear 18446744073709551616 n, 1, 1⟩ ⟨n_threads_linear, 1, 1⟩
        shmem_size (fun threadIdx blockIdx blockDim =>
          parallel_for_soa_kernel threadIdx blockIdx blockDim n d) := by
  unfold parallel_for_soa
  rw [if_neg (by omega)]

theorem parallel_for_soa_kernel_eq_some (t b bd : dim3) (n d : Nat) (p : Nat × Nat) :
    parallel_for_soa_kernel t b bd n d = some p ↔
      u32 (t.x + u32 (b.x * bd.x)) = p.1 ∧ p.1 < n ∧ b.y = p.2 ∧ p.2 < d := by
  obtain ⟨e, dm⟩ := p
  unfold parallel_for_soa_kernel
  simp only [ge_iff_le]
  split_ifs with h1 h2
  · constructor
    · intro h; cases h
    · rintro ⟨h3, h4, _, _⟩; omega
  · constructor
    · intro h; cases h
    · rintro ⟨_, _, h5, h6⟩; omega
  · constructor
    · intro h
      simp only [Option.some.injEq, Prod.mk.injEq] at h
      obtain ⟨h3, h4⟩ := h
      exact ⟨h3, by omega, h4, by omega⟩
    · rintro ⟨h3, _, h5, _⟩
      rw [h3, h5]

/-- What structure-of-arrays dispatch does on the range where the 32-bit index
does not wrap: `fun(elem, dim)` is called exactly once for `elem < n` and
`dim = 0`, and never for another pair; the dimensions `1 .. d-1` are not
visited. -/
theorem parallel_for_soa_count (shmem_size n d : Nat) (hn : 0 < n) (hd : 0 < d)
    (hle : n ≤ 4294967296) (e dm : Nat) :
    List.count (e, dm) (parallel_for_soa shmem_size n d) =
      if e < n ∧ dm = 0 then 1 else 0 := by
  rw [parallel_for_soa_eq_launch shmem_size n d hn hd, n_blocks_linear_size_t n (by omega)]
  have hnb : u32 ((n + 127) / 128) = (n + 127) / 128 := by unfold u32; omega
  rw [hnb]
  split_ifs with hi
  · obtain ⟨he, hdm⟩ := hi
    subst hdm
    refine count_launch_eq_one _ _ _ _ (e, 0) ⟨e / 128, 0, 0⟩ ⟨e % 128, 0, 0⟩ ?_ ?_ ?_ ?_
    · rw [mem_indices]; dsimp only; omega
    · rw [mem_indices]; unfold n_threads_linear; dsimp only; omega
    · rw [parallel_for_soa_kernel_eq_some]
      unfold u32 n_threads_linear; dsimp only
      omega
    · rintro ⟨bx, bY, bz⟩ ⟨tx, tY, tz⟩ hb ht hk
      rw [mem_indices] at hb ht
      rw [parallel_for_soa_kernel_eq_some] at hk
      unfold u32 n_threads_linear at *
      dsimp only at hb ht hk
      have h1 : bx = e / 128 := by omega
      have h2 : tx = e % 128 := by omega
      have h3 : bY = 0 := by omega
      have h4 : bz = 0 := by omega
      have h5 : tY = 0 := by omega
      have h6 : tz = 0 := by omega
      subst h1 h2 h3 h4 h5 h6
      exact ⟨rfl, rfl⟩
  · refine count_launch_eq_zero _ _ _ _ (e, dm) ?_
    intro b2 t2 hb _ hk
    rw [mem_indices] at hb
    rw [parallel_for_soa_kernel_eq_some] at hk
    dsimp only at hb hk
    omega

/-! ## Array-of-structures dispatch -/

theorem parallel_for_aos_kernel_eq_some (t b bd : dim3) (n d : Nat) (p : Nat × Nat) :
    parallel_for_aos_kernel t b bd n d = some p ↔
      u32 (t.y + u32 (b.x * bd.y)) = p.1 ∧ p.1 < n ∧ t.x = p.2 ∧ p.2 < d := by
  obtain ⟨e, dm⟩ := p
  unfold parallel_for_aos_kernel
  simp only [ge_iff_le]
  split_ifs with h1 h2
  · constructor
    · intro h; cases h
    · rintro ⟨_, _, h5, h6⟩; omega
  · constructor
    · intro h; cases h
    · rintro ⟨h3, h4, _, _⟩; omega
  · constructor
    · intro h
      simp only [Option.some.injEq, Prod.mk.injEq] at h
      obtain ⟨h3, h4⟩ := h
      exact ⟨h3, by omega, h4, by omega⟩
    · rintro ⟨h3, _, h5, _⟩
      rw [h3, h5]

/-- The launch of `parallel_for_aos` once its geometry is known: `ty` rows of
threads per block, `nt` threads per block, `nb` blocks. -/
theorem parallel_for_aos_eq_launch (shmem_size n d ty nt nb : Nat) (hn : 0 < n) (hd : 0 < d)
    (hty : div_round_up 4294967296 n_threads_linear d = ty)
    (hnt : u32 (d * ty) = nt) (hnt0 : nt ≠ 0)
    (hnb : u32 (div_round_up 18446744073709551616 (u64 (n * d)) nt) = nb) :
    parallel_for_aos shmem_size n d =
      some (launch ⟨nb, 1, 1⟩ ⟨d, ty, 1⟩ shmem_size (fun threadIdx blockIdx blockDim =>
        parallel_for_aos_kernel threadIdx blockIdx blockDim n d)) := by
  unfold parallel_for_aos
  rw [if_neg (by omega)]
  dsimp only
  rw [hty, hnt, if_neg hnt0, hnb]

theorem div_round_up_threads (d : Nat) (hd2 : d + 127 < 4294967296) :
    div_round_up 4294967296 n_threads_linear d = (d + 127) / d := by
  unfold div_round_up n_threads_linear
  have h : 128 + d - 1 = d + 127 := by omega
  rw [h, Nat.mod_eq_of_lt hd2]

/-- Ceiling quotient: `q = (a + k - 1) / k` satisfies `a ≤ q * k < a + k`. -/
theorem ceil_div_bounds (a k : Nat) (hk : 0 < k) :
    a ≤ (a + k - 1) / k * k ∧ (a + k - 1) / k * k < a + k := by
  have h1 := Nat.div_add_mod (a + k - 1) k
  have h2 := Nat.mod_lt (a + k - 1) hk
  have h3 : k * ((a + k - 1) / k) = (a + k - 1) / k * k := Nat.mul_comm _ _
  constructor <;> omega

/-- Array-of-structures dispatch on the range where no launch arithmetic wraps
(`n + 128 ≤ 2^32`, `d + 127 < 2^32`): the host code does not fault and
`fun(elem, dim)` is called exactly once for every pair with `elem < n` and
`dim < d`, and never for another pair. -/
theorem parallel_for_aos_count (shmem_size n d : Nat) (hn : 0 < n) (hd : 0 < d)
    (hn2 : n + 128 ≤ 4294967296) (hd2 : d + 127 < 4294967296) :
    ∃ l, parallel_for_aos shmem_size n d = some l ∧
      ∀ e dm, List.count (e, dm) l = if e < n ∧ dm < d then 1 else 0 := by
  -- the geometry
  obtain ⟨ty, hty⟩ : ∃ ty, ty = (d + 127) / d := ⟨_, rfl⟩
  have hty1 : 1 ≤ ty := by rw [hty]; exact Nat.div_pos (by omega) hd
  have hty2 : ty ≤ 128 := by
    have : (d + 127) / d < 129 := by rw [Nat.div_lt_iff_lt_mul hd]; omega
    omega
  have hmul : d * ty ≤ d + 127 := by rw [hty]; exact Nat.mul_div_le _ _
  have hmul2 : d ≤ d * ty := Nat.le_mul_of_pos_right d hty1
  obtain ⟨nt, hnt⟩ : ∃ nt, nt = d * ty := ⟨_, rfl⟩
  have hnd : n * d ≤ 4294967168 * 4294967168 := Nat.mul_le_mul (by omega) (by omega)
  obtain ⟨a, ha⟩ : ∃ a, a = n * d := ⟨_, rfl⟩
  obtain ⟨q, hq⟩ : ∃ q, q = (a + nt - 1) / nt := ⟨_, rfl⟩
  have hb := ceil_div_bounds a nt (by omega)
  rw [← hq] at hb
  obtain ⟨hq1, hq2⟩ := hb
  have hq3 : q * nt = q * ty * d := by rw [hnt]; ring
  have hq4 : n ≤ q * ty := by
    apply Nat.le_of_mul_le_mul_right _ hd
    rw [← hq3, ← ha]; exact hq1
  have hq5 : q * ty < n + ty := by
    apply Nat.lt_of_mul_lt_mul_right (a := d)
    have : (n + ty) * d = a + nt := by rw [ha, hnt]; ring
    rw [← hq3, this]; exact hq2
  have hq6 : q ≤ q * ty := Nat.le_mul_of_pos_right q hty1
  have hlaunch := parallel_for_aos_eq_launch shmem_size n d ty nt q hn hd
    (by rw [div_round_up_threads d hd2, hty])
    (by unfold u32; rw [← hnt]; omega) (by omega)
    (by
      unfold u64 div_round_up u32
      rw [← ha, Nat.mod_eq_of_lt (by omega : a < 18446744073709551616),
        Nat.mod_eq_of_lt (by omega : a + nt - 1 < 18446744073709551616), ← hq]
      omega)
  refine ⟨_, hlaunch, ?_⟩
  intro e dm
  split_ifs with hi
  · obtain ⟨he, hdm⟩ := hi
    have hdiv : e / ty < q := by rw [Nat.div_lt_iff_lt_mul hty1]; omega
    have hmod : e % ty < ty := Nat.mod_lt _ hty1
    have hdm2 : e / ty * ty + e % ty = e := Nat.div_add_mod' e ty
    refine count_launch_eq_one _ _ _ _ (e, dm) ⟨e / ty, 0, 0⟩ ⟨dm, e % ty, 0⟩ ?_ ?_ ?_ ?_
    · rw [mem_indices]; dsimp only; omega
    · rw [mem_indices]; dsimp only; omega
    · rw [parallel_for_aos_kernel_eq_some]
      unfold u32; dsimp only
      omega
    · rintro ⟨bx, bY, bz⟩ ⟨tx, tY, tz⟩ hb ht hk
      rw [mem_indices] at hb ht
      rw [parallel_for_aos_kernel_eq_some] at hk
      unfold u32 at hk
      dsimp only at hb ht hk
      have h7 : (bx + 1) * ty ≤ q * ty := Nat.mul_le_mul_right ty (by omega)
      have h8 : (bx + 1) * ty = bx * ty + ty := by ring
      have h9 : tY + ty * bx = e := by
        have : ty * bx = bx * ty := Nat.mul_comm _ _
        omega
      have h10 := (Nat.div_mod_unique hty1).2 ⟨h9, ht.2.1⟩
      have h1 : bx = e / ty := h10.1.symm
      have h2 : tY = e % ty := h10.2.symm
      have h3 : bY = 0 := by omega
      have h4 : bz = 0 := by omega
      have h5 : tx = dm := hk.2.2.1
      have h6 : tz = 0 := by omega
      subst h1 h2 h3 h4 h5 h6
      exact ⟨rfl, rfl⟩
  · refine count_launch_eq_zero _ _ _ _ (e, dm) ?_
    intro b2 t2 _ _ hk
    rw [parallel_for_aos_kernel_eq_some] at hk
    dsimp only at hk
    omega

/-- Linear dispatch over 1000 elements: every index below 1000 is visited
exactly once and no other index is visited. -/
theorem parallel_for_covers_1000 (i : Nat) :
    List.count i (parallel_for 0 1000) = if i < 1000 then 1 else 0 :=
  parallel_for_count 0 1000 (by decide) (by decide) i

/-- Array-of-structures dispatch over 50 elements and 4 dimensions: every pair
of `[0,50) × [0,4)` is visited exactly once and no other pair is visited. -/
theorem parallel_for_aos_covers_50_4 :
    ∃ l, parallel_for_aos 0 50 4 = some l ∧
      ∀ e dm, List.count (e, dm) l = if e < 50 ∧ dm < 4 then 1 else 0 :=
  parallel_for_aos_count 0 50 4 (by decide) (by decide) (by decide) (by decide)

/-! ## The dispatch claims -/

/-- C1: structure-of-arrays dispatch at the element count 50 and dimension
count 4.  The grid `blocks` that the host code computes is `(1, 4, 1)`, but the
launch is made with the grid `(1, 1, 1)`, so `blockIdx.y` is always `0`: the
user function is called for the 50 pairs `(elem, 0)` only, and the pairs with
dimension 1, 2 or 3, such as `(0, 1)`, are never visited. -/
theorem parallel_for_soa_misses_dims :
    parallel_for_soa_blocks 50 4 = ⟨1, 4, 1⟩ ∧
    parallel_for_soa 0 50 4 = (List.range 50).map (fun e => (e, 0)) ∧
    List.count (0, 1) (parallel_for_soa 0 50 4) = 0 ∧
    List.count (49, 3) (parallel_for_soa 0 50 4) = 0 := by
  refine ⟨by decide, by decide, ?_, ?_⟩
  · rw [parallel_for_soa_count 0 50 4 (by decide) (by decide) (by decide)]
    decide
  · rw [parallel_for_soa_count 0 50 4 (by decide) (by decide) (by decide)]
    decide

/-- C2: array-of-structures dispatch at the element count `2^32 + 1` and
dimension count 1.  The block is `(1, 128, 1)` and there are `2^25 + 1` blocks;
`threadIdx.y + blockIdx.x * blockDim.y` is formed in 32 bits, so block `2^25`
computes element 0 again: the pair `(0, 0)` is visited at least twice and the
pair `(2^32, 0)` is never visited. -/
theorem parallel_for_aos_index_wraps :
    ∃ l, parallel_for_aos 0 4294967297 1 = some l ∧
      2 ≤ List.count (0, 0) l ∧ List.count (4294967296, 0) l = 0 := by
  refine ⟨_, parallel_for_aos_eq_launch 0 4294967297 1 128 128 33554433 (by decide) (by decide)
    (by decide) (by decide) (by decide) (by decide), ?_, ?_⟩
  · refine two_le_count_launch _ _ _ _ (0, 0) ⟨0, 0, 0⟩ ⟨0, 0, 0⟩ ⟨33554432, 0, 0⟩ ⟨0, 0, 0⟩
      ?_ ?_ ?_ ?_ (by decide) (by decide) (by decide)
    all_goals rw [mem_indices]; decide
  · refine count_launch_eq_zero _ _ _ _ _ ?_
    intro b2 t2 _ _ hk
    rw [parallel_for_aos_kernel_eq_some] at hk
    have := u32_lt (t2.y + u32 (b2.x * 128))
    dsimp only at hk
    omega

/-- C3: linear dispatch at the element count `2^32 + 1`.  There are `2^25 + 1`
blocks of 128 threads; `threadIdx.x + blockIdx.x * blockDim.x` is formed in 32
bits, so thread 0 of block `2^25` computes index 0 like thread 0 of block 0:
`fun(0)` is called at least twice and `fun(2^32)` is never called. -/
theorem parallel_for_index_wraps :
    n_blocks_linear 18446744073709551616 4294967297 = 33554433 ∧
    parallel_for_kernel ⟨0, 0, 0⟩ ⟨0, 0, 0⟩ ⟨128, 1, 1⟩ 4294967297 = some 0 ∧
    parallel_for_kernel ⟨0, 0, 0⟩ ⟨33554432, 0, 0⟩ ⟨128, 1, 1⟩ 4294967297 = some 0 ∧
    2 ≤ List.count 0 (parallel_for 0 4294967297) ∧
    List.count 4294967296 (parallel_for 0 4294967297) = 0 := by
  have hnb : n_blocks_linear 18446744073709551616 4294967297 = 33554433 := by decide
  refine ⟨hnb, by decide, by decide, ?_, ?_⟩
  · rw [parallel_for_eq_launch 0 4294967297 (by decide), hnb]
    refine two_le_count_launch _ _ _ _ 0 ⟨0, 0, 0⟩ ⟨0, 0, 0⟩ ⟨33554432, 0, 0⟩ ⟨0, 0, 0⟩
      ?_ ?_ ?_ ?_ (by decide) (by decide) (by decide)
    all_goals rw [mem_indices]; decide
  · rw [parallel_for_eq_launch 0 4294967297 (by decide)]
    refine count_launch_eq_zero _ _ _ _ _ ?_
    intro b2 t2 _ _ hk
    rw [parallel_for_kernel_eq_some] at hk
    have := u32_lt (t2.x + u32 (b2.x * n_threads_linear))
    dsimp only at hk
    omega

/-- C10, as stated, fails: a dimension count of `-1` reaches the `uint32_t`
parameter of `parallel_for_soa` as `4294967295`, which the guard
`n_dims <= 0` lets through, and with 50 elements the user function is called
50 times. -/
theorem parallel_for_soa_negative_dims_runs :
    to_uint32 (-1) = 4294967295 ∧
    parallel_for_soa 0 50 (to_uint32 (-1)) = (List.range 50).map (fun e => (e, 0)) ∧
    parallel_for_soa 0 50 (to_uint32 (-1)) ≠ [] := by
  refine ⟨by decide, by decide, by decide⟩

/-- C10, amended: a dispatch with the element count 0, or for AOS/SOA the
dimension count 0, calls the user function zero times; `linear_kernel`, whose
count keeps the caller's own (signed) type, launches nothing for every count
`≤ 0`. -/
theorem empty_dispatch_noop {β : Type} (shmem_size n d m : Nat)
    (kernel : dim3 → dim3 → List β) (k : Int) (hk : k ≤ 0) :
    parallel_for shmem_size 0 = [] ∧
    parallel_for_aos shmem_size 0 d = some [] ∧
    parallel_for_aos shmem_size n 0 = some [] ∧
    parallel_for_soa shmem_size 0 d = [] ∧
    parallel_for_soa shmem_size n 0 = [] ∧
    linear_kernel kernel m k = [] := by
  refine ⟨?_, ?_, ?_, ?_, ?_, ?_⟩
  · unfold parallel_for; rw [if_pos (by omega)]
  · unfold parallel_for_aos; rw [if_pos (by omega)]
  · unfold parallel_for_aos; rw [if_pos (by omega)]
  · unfold parallel_for_soa; rw [if_pos (by omega)]
  · unfold parallel_for_soa; rw [if_pos (by omega)]
  · unfold linear_kernel; rw [if_pos hk]

/-- C10, amended, at a concrete input: shared-memory size 0, 50 elements,
4 dimensions, and a `linear_kernel` count of `-1` for a kernel that would
record one call per block. -/
theorem empty_dispatch_noop_witness :
    (-1 : Int) ≤ 0 ∧
    parallel_for 0 0 = [] ∧
    parallel_for_aos 0 0 4 = some [] ∧
    parallel_for_aos 0 50 0 = some [] ∧
    parallel_for_soa 0 0 4 = [] ∧
    parallel_for_soa 0 50 0 = [] ∧
    linear_kernel (fun grid _ => List.range grid.x) 4294967296 (-1) = [] :=
  ⟨by decide, empty_dispatch_noop 0 50 4 4294967296 (fun grid _ => List.range grid.x) (-1)
    (by decide)⟩

end nwob

/-! ## 3D views: arithmetic facts -/

namespace GNNBEM

open Machine

theorem to_uint32_natCast (n : Nat) (h : n < 4294967296) : to_uint32 (n : Int) = n := by
  unfold to_uint32; omega

theorem to_int32_of_lt (u : Nat) (h : u < 2147483648) : to_int32 u = (u : Int) := by
  unfold to_int32
  have h1 : u % 4294967296 = u := Nat.mod_eq_of_lt (by omega)
  rw [h1, if_pos h]

theorem wrap_int32_congr (x k : Int) : wrap_int32 (x + 4294967296 * k) = wrap_int32 x := by
  unfold wrap_int32
  have h : x + 4294967296 * k + 2147483648 = (x + 2147483648) + 4294967296 * k := by ring
  rw [h, Int.add_mul_emod_self_left]

theorem wrap_int32_of_fits (x : Int) (h0 : 0 ≤ x) (h1 : x < 2147483648) : wrap_int32 x = x := by
  unfold wrap_int32; omega

/-- The `int` product `rows * cols * batchs` of `resize` is the exact product
whenever the exact product fits in `int`. -/
theorem wrap_int32_product (b r c : Int) (h0 : 0 ≤ b * r * c) (h1 : b * r * c < 2147483648) :
    wrap_int32 (wrap_int32 (r * c) * b) = b * r * c := by
  have h2 : wrap_int32 (r * c) = r * c - 4294967296 * ((r * c + 2147483648) / 4294967296) := by
    unfold wrap_int32
    rw [Int.emod_def]; ring
  have h3 : wrap_int32 (r * c) * b
      = b * r * c + 4294967296 * (-(((r * c + 2147483648) / 4294967296) * b)) := by
    rw [h2]; ring
  rw [h3, wrap_int32_congr, wrap_int32_of_fits _ h0 h1]

theorem offset_lt (B R C b i j : Nat) (hb : b < B) (hi : i < R) (hj : j < C) :
    b * R * C + i * C + j < B * R * C := by
  have h1 : (b + 1) * R ≤ B * R := Nat.mul_le_mul_right R hb
  have h2 : (b + 1) * R = b * R + R := by ring
  have h3 : (b * R + i + 1) * C ≤ B * R * C := Nat.mul_le_mul_right C (by omega)
  have h4 : (b * R + i + 1) * C = b * R * C + i * C + C := by ring
  omega

/-- On a shape whose element count fits in `int`, the 32-bit offset expression
of an in-range triple is the exact row-major offset, and the batch offset is
the exact `b * rows * cols`. -/
theorem offset_expr_exact (rows cols : Int) (B R C b i j : Nat)
    (hR : rows = (R : Int)) (hC : cols = (C : Int)) (hfit : B * R * C < 2147483648)
    (hb : b < B) (hi : i < R) (hj : j < C) :
    offset_expr rows cols b i j = b * R * C + i * C + j ∧
    batch_offset rows cols b = b * R * C ∧
    b * R * C + i * C + j < B * R * C := by
  have hlt := offset_lt B R C b i j hb hi hj
  have hC1 : 1 ≤ C := by omega
  have hB1 : 1 ≤ B := by omega
  have h1 : b * R ≤ b * R * C := Nat.le_mul_of_pos_right _ hC1
  have h2 : R ≤ B * R := Nat.le_mul_of_pos_left _ hB1
  have h3 : B * R ≤ B * R * C := Nat.le_mul_of_pos_right _ hC1
  have h4 : C ≤ R * C := Nat.le_mul_of_pos_left _ (by omega)
  have h5 : R * C ≤ B * (R * C) := Nat.le_mul_of_pos_left _ hB1
  have h6 : B * (R * C) = B * R * C := by ring
  have hRu : to_uint32 rows = R := by rw [hR]; exact to_uint32_natCast R (by omega)
  have hCu : to_uint32 cols = C := by rw [hC]; exact to_uint32_natCast C (by omega)
  have e1 : u32 (b * R) = b * R := Nat.mod_eq_of_lt (by omega)
  have e2 : u32 (b * R * C) = b * R * C := Nat.mod_eq_of_lt (by omega)
  have e3 : u32 (i * C) = i * C := Nat.mod_eq_of_lt (by omega)
  have e4 : u32 (b * R * C + i * C) = b * R * C + i * C := Nat.mod_eq_of_lt (by omega)
  have e5 : u32 (b * R * C + i * C + j) = b * R * C + i * C + j := Nat.mod_eq_of_lt (by omega)
  refine ⟨?_, ?_, hlt⟩
  · unfold offset_expr
    rw [hRu, hCu, e1, e2, e3, e4, e5]
  · unfold batch_offset
    rw [hRu, hCu, e1, e2]

/-- The hypotheses of the index claims, moved from `int` to natural numbers. -/
theorem shape_to_nat (batchs rows cols : Int) (b i j : Nat)
    (hfit : batchs * rows * cols < 2147483648)
    (hb : (b : Int) < batchs) (hi : (i : Int) < rows) (hj : (j : Int) < cols) :
    ∃ B R C : Nat, batchs = (B : Int) ∧ rows = (R : Int) ∧ cols = (C : Int) ∧
      B * R * C < 2147483648 ∧ b < B ∧ i < R ∧ j < C := by
  refine ⟨batchs.toNat, rows.toNat, cols.toNat, by omega, by omega, by omega, ?_, by omega,
    by omega, by omega⟩
  have h1 : ((batchs.toNat * rows.toNat * cols.toNat : Nat) : Int) = batchs * rows * cols := by
    push_cast
    rw [Int.toNat_of_nonneg (by omega), Int.toNat_of_nonneg (by omega),
      Int.toNat_of_nonneg (by omega)]
  have h2 : ((batchs.toNat * rows.toNat * cols.toNat : Nat) : Int) < 2147483648 := by
    rw [h1]; exact hfit
  exact_mod_cast h2

theorem batch_offset_exact (rows cols : Int) (B R C b : Nat)
    (hR : rows = (R : Int)) (hC : cols = (C : Int)) (hfit : B * R * C < 2147483648)
    (hb : b < B) : batch_offset rows cols b = b * R * C := by
  rcases Nat.eq_zero_or_pos C with hC0 | hCpos
  · subst hC0
    subst hC
    unfold batch_offset to_uint32 u32
    simp
  rcases Nat.eq_zero_or_pos R with hR0 | hRpos
  · subst hR0
    subst hR
    unfold batch_offset to_uint32 u32
    simp
  exact (offset_expr_exact rows cols B R C b 0 0 hR hC hfit hb hRpos hCpos).2.1

/-! ## The 3D view claims -/

/-- C4: for a 3D view (device or host) of shape `batchs × rows × cols` with
`batchs * rows * cols < 2^31` and an in-range triple `(b, i, j)`,
`index(b, i, j)` returns exactly `b * rows * cols + i * cols + j`: neither the
unsigned 32-bit arithmetic nor the conversion to `int` changes the value. -/
theorem index_exact {α : Type} (batchs rows cols : Int) (b i j : Nat)
    (hfit : batchs * rows * cols < 2147483648)
    (hb : (b : Int) < batchs) (hi : (i : Int) < rows) (hj : (j : Int) < cols) :
    (∀ v : GArr3D α, v.batchs = batchs → v.rows = rows → v.cols = cols →
      v.index b i j = b * rows * cols + i * cols + j) ∧
    (∀ w : CArr3D α, w.batchs = batchs → w.rows = rows → w.cols = cols →
      w.index b i j = b * rows * cols + i * cols + j) := by
  obtain ⟨B, R, C, hB, hR, hC, hfitN, hbN, hiN, hjN⟩ :=
    shape_to_nat batchs rows cols b i j hfit hb hi hj
  obtain ⟨hoff, _, hlt⟩ := offset_expr_exact rows cols B R C b i j hR hC hfitN hbN hiN hjN
  have key : to_int32 (offset_expr rows cols b i j) = b * rows * cols + i * cols + j := by
    rw [hoff, to_int32_of_lt _ (by omega), hR, hC]
    push_cast
    rfl
  constructor
  · intro v _ h2 h3
    unfold GArr3D.index
    rw [h2, h3]; exact key
  · intro w _ h2 h3
    unfold CArr3D.index
    rw [h2, h3]; exact key

/-- C4 at the shape `3 × 2 × 2` and the triple `(2, 1, 1)`: the offset is 11,
for the device view and for the host view. -/
theorem index_exact_witness :
    ((3 : Int) * 2 * 2 < 2147483648 ∧ ((2 : Nat) : Int) < 3 ∧ ((1 : Nat) : Int) < 2) ∧
    (GArr3D.ctor_shape ⟨0, 0, 0, ⟨0, 0, 0⟩⟩ 3 2 2 : GArr3D Int).index 2 1 1 = 11 ∧
    (CArr3D.ctor_shape ⟨0, 0, 0, ⟨0, 0, 0⟩⟩ 3 2 2 : CArr3D Int).index 2 1 1 = 11 := by
  have h := index_exact (α := Int) 3 2 2 2 1 1 (by decide) (by decide) (by decide) (by decide)
  refine ⟨by decide, ?_, ?_⟩
  · have h1 := h.1 (GArr3D.ctor_shape ⟨0, 0, 0, ⟨0, 0, 0⟩⟩ 3 2 2) rfl rfl rfl
    rw [h1]; decide
  · have h2 := h.2 (CArr3D.ctor_shape ⟨0, 0, 0, ⟨0, 0, 0⟩⟩ 3 2 2) rfl rfl rfl
    rw [h2]; decide

/-- C5, as stated, fails: after `clear()` a view built with the shape
`3 × 2 × 2` has an empty buffer but still reports `batchs = 3`, `rows = 2`,
`cols = 2` and `size = (3, 2, 2)`, so `batchs * rows * cols` is 12, not 0. -/
theorem clear_keeps_shape_example :
    ((GArr3D.ctor_shape ⟨0, 0, 0, ⟨0, 0, 0⟩⟩ 3 2 2 : GArr3D Int).clear.data = [] ∧
     (GArr3D.ctor_shape ⟨0, 0, 0, ⟨0, 0, 0⟩⟩ 3 2 2 : GArr3D Int).clear.batchs = 3 ∧
     (GArr3D.ctor_shape ⟨0, 0, 0, ⟨0, 0, 0⟩⟩ 3 2 2 : GArr3D Int).clear.rows = 2 ∧
     (GArr3D.ctor_shape ⟨0, 0, 0, ⟨0, 0, 0⟩⟩ 3 2 2 : GArr3D Int).clear.cols = 2 ∧
     (GArr3D.ctor_shape ⟨0, 0, 0, ⟨0, 0, 0⟩⟩ 3 2 2 : GArr3D Int).clear.size = ⟨3, 2, 2⟩) ∧
    ((CArr3D.ctor_shape ⟨0, 0, 0, ⟨0, 0, 0⟩⟩ 3 2 2 : CArr3D Int).clear.data = [] ∧
     (CArr3D.ctor_shape ⟨0, 0, 0, ⟨0, 0, 0⟩⟩ 3 2 2 : CArr3D Int).clear.batchs = 3 ∧
     (CArr3D.ctor_shape ⟨0, 0, 0, ⟨0, 0, 0⟩⟩ 3 2 2 : CArr3D Int).clear.rows = 2 ∧
     (CArr3D.ctor_shape ⟨0, 0, 0, ⟨0, 0, 0⟩⟩ 3 2 2 : CArr3D Int).clear.cols = 2 ∧
     (CArr3D.ctor_shape ⟨0, 0, 0, ⟨0, 0, 0⟩⟩ 3 2 2 : CArr3D Int).clear.size = ⟨3, 2, 2⟩) := by
  decide

/-- C5, amended: after `clear()` the backing buffer of a 3D view (device or
host, in any state) is empty, and `batchs`, `rows`, `cols` and `size` are the
values the view had before the call. -/
theorem clear_empties_buffer_keeps_shape {α : Type} (v : GArr3D α) (w : CArr3D α) :
    (v.clear.data = [] ∧ v.clear.batchs = v.batchs ∧ v.clear.rows = v.rows ∧
      v.clear.cols = v.cols ∧ v.clear.size = v.size) ∧
    (w.clear.data = [] ∧ w.clear.batchs = w.batchs ∧ w.clear.rows = w.rows ∧
      w.clear.cols = w.cols ∧ w.clear.size = w.size) :=
  ⟨⟨rfl, rfl, rfl, rfl, rfl⟩, ⟨rfl, rfl, rfl, rfl, rfl⟩⟩

theorem resize_length {α : Type} [Inhabited α] (buf : List α) (b r c : Int)
    (hb : 0 ≤ b) (hr : 0 ≤ r) (hc : 0 ≤ c) (hfit : b * r * c < 2147483648) :
    ((LinearBuffer.resize buf (wrap_int32 (wrap_int32 (r * c) * b))).length : Int)
      = b * r * c := by
  have h0 : 0 ≤ b * r * c := Int.mul_nonneg (Int.mul_nonneg hb hr) hc
  rw [wrap_int32_product b r c h0 hfit]
  unfold LinearBuffer.resize
  rw [List.length_replicate, Int.toNat_of_nonneg h0]

/-- C6, as stated, fails: a view built with the shape `3 × 2 × 2` satisfies
the shape/buffer predicate (12 elements), and after `clear()` it does not: the
buffer is empty while `batchs * rows * cols` is still 12. -/
theorem clear_breaks_shape_matches :
    ((GArr3D.ctor_shape ⟨0, 0, 0, ⟨0, 0, 0⟩⟩ 3 2 2 : GArr3D Int).shape_matches ∧
     ¬ (GArr3D.ctor_shape ⟨0, 0, 0, ⟨0, 0, 0⟩⟩ 3 2 2 : GArr3D Int).clear.shape_matches) ∧
    ((CArr3D.ctor_shape ⟨0, 0, 0, ⟨0, 0, 0⟩⟩ 3 2 2 : CArr3D Int).shape_matches ∧
     ¬ (CArr3D.ctor_shape ⟨0, 0, 0, ⟨0, 0, 0⟩⟩ 3 2 2 : CArr3D Int).clear.shape_matches) := by
  decide

/-- C6, amended: the predicate "the buffer holds `batchs * rows * cols`
elements" holds after `GArr3D()` and after construction or `resize` with a
non-negative shape whose product fits in `int` (from any prior state); the
destination of `assign` satisfies it when the source does; `reset` and
`reset_minus_one` preserve it; and after `clear` it holds exactly when
`batchs * rows * cols = 0`. -/
theorem shape_matches_preserved {α : Type} [Inhabited α] [Zero α] [One α] [Neg α]
    (u : Indeterminate) (v0 : GArr3D α) (w0 : CArr3D α) (b r c : Int)
    (hb : 0 ≤ b) (hr : 0 ≤ r) (hc : 0 ≤ c) (hfit : b * r * c < 2147483648)
    (A : GArr3D α) (hA : A.shape_matches) (H : CArr3D α) (hH : H.shape_matches) :
    (GArr3D.ctor u : GArr3D α).shape_matches ∧
    ((GArr3D.ctor_shape u b r c : GArr3D α).shape_matches ∧
      (CArr3D.ctor_shape u b r c : CArr3D α).shape_matches) ∧
    ((v0.resize b r c).shape_matches ∧ (v0.resize3 ⟨b, r, c⟩).shape_matches ∧
      (w0.resize b r c).shape_matches) ∧
    ((v0.assign A).shape_matches ∧ (v0.assign_host H).shape_matches ∧
      (w0.assign A).shape_matches ∧ (GArr3D.ctor_host u H).shape_matches ∧
      (CArr3D.ctor_device u A).shape_matches) ∧
    (A.reset.shape_matches ∧ A.reset_minus_one.shape_matches ∧
      H.reset.shape_matches ∧ H.reset_minus_one.shape_matches) ∧
    ((A.clear.shape_matches ↔ A.batchs * A.rows * A.cols = 0) ∧
      (H.clear.shape_matches ↔ H.batchs * H.rows * H.cols = 0)) := by
  have hlen : ∀ buf : List α,
      ((LinearBuffer.resize buf (wrap_int32 (wrap_int32 (r * c) * b))).length : Int)
        = b * r * c := fun buf => resize_length buf b r c hb hr hc hfit
  have hlen0 : ∀ buf : List α,
      ((LinearBuffer.resize buf (wrap_int32 (wrap_int32 (0 * 0) * 0))).length : Int)
        = 0 * 0 * 0 :=
    fun buf => resize_length buf 0 0 0 (le_refl _) (le_refl _) (le_refl _) (by decide)
  refine ⟨?_, ⟨?_, ?_⟩, ⟨?_, ?_, ?_⟩, ⟨hA, hH, hA, hH, hA⟩, ⟨?_, ?_, ?_, ?_⟩, ⟨?_, ?_⟩⟩
  · exact hlen0 (GArr3D.raw u).data
  · exact hlen (GArr3D.raw u).data
  · exact hlen (CArr3D.raw u).data
  · exact hlen v0.data
  · exact hlen v0.data
  · exact hlen w0.data
  · unfold GArr3D.shape_matches GArr3D.reset LinearBuffer.reset
    rw [List.length_replicate]; exact hA
  · unfold GArr3D.shape_matches GArr3D.reset_minus_one LinearBuffer.reset_minus_one
    rw [List.length_replicate]; exact hA
  · unfold CArr3D.shape_matches CArr3D.reset LinearBuffer.reset
    rw [List.length_replicate]; exact hH
  · unfold CArr3D.shape_matches CArr3D.reset_minus_one LinearBuffer.reset_minus_one
    rw [List.length_replicate]; exact hH
  · unfold GArr3D.shape_matches GArr3D.clear LinearBuffer.clear
    simp only [List.length_nil, Nat.cast_zero]
    exact eq_comm
  · unfold CArr3D.shape_matches CArr3D.clear LinearBuffer.clear
    simp only [List.length_nil, Nat.cast_zero]
    exact eq_comm

/-- C6, amended, at a concrete input: the shape `3 × 2 × 2`, prior states and
sources built with the shapes `1 × 1 × 1` and `2 × 2 × 2`. -/
theorem shape_matches_preserved_witness :
    ((0 : Int) ≤ 3 ∧ (0 : Int) ≤ 2 ∧ (3 : Int) * 2 * 2 < 2147483648 ∧
      (GArr3D.ctor_shape ⟨0, 0, 0, ⟨0, 0, 0⟩⟩ 2 2 2 : GArr3D Int).shape_matches ∧
      (CArr3D.ctor_shape ⟨0, 0, 0, ⟨0, 0, 0⟩⟩ 2 2 2 : CArr3D Int).shape_matches) ∧
    ((GArr3D.ctor_shape ⟨0, 0, 0, ⟨0, 0, 0⟩⟩ 1 1 1 : GArr3D Int).resize 3 2 2).shape_matches ∧
    ((CArr3D.ctor_shape ⟨0, 0, 0, ⟨0, 0, 0⟩⟩ 1 1 1 : CArr3D Int).assign
      (GArr3D.ctor_shape ⟨0, 0, 0, ⟨0, 0, 0⟩⟩ 2 2 2)).shape_matches ∧
    (GArr3D.ctor_shape ⟨0, 0, 0, ⟨0, 0, 0⟩⟩ 2 2 2 : GArr3D Int).reset.shape_matches := by
  have h := shape_matches_preserved (α := Int) ⟨0, 0, 0, ⟨0, 0, 0⟩⟩
    (GArr3D.ctor_shape ⟨0, 0, 0, ⟨0, 0, 0⟩⟩ 1 1 1)
    (CArr3D.ctor_shape ⟨0, 0, 0, ⟨0, 0, 0⟩⟩ 1 1 1) 3 2 2
    (by decide) (by decide) (by decide) (by decide)
    (GArr3D.ctor_shape ⟨0, 0, 0, ⟨0, 0, 0⟩⟩ 2 2 2) (by decide)
    (CArr3D.ctor_shape ⟨0, 0, 0, ⟨0, 0, 0⟩⟩ 2 2 2) (by decide)
  exact ⟨by decide, h.2.2.1.1, h.2.2.2.1.2.2.1, h.2.2.2.2.1.1⟩

/-- C7: for a shape `(b, r, c)` with non-negative components whose product
fits in `int` and any prior state of a 3D view, after `resize(b, r, c)` (also
through `GArr3D::resize(int3)`) the view reports `batchs = b`, `rows = r`,
`cols = c`, `size = (b, r, c)` and its buffer holds exactly `b * r * c`
elements. -/
theorem resize_sets_shape_and_length {α : Type} [Inhabited α]
    (v : GArr3D α) (w : CArr3D α) (b r c : Int)
    (hb : 0 ≤ b) (hr : 0 ≤ r) (hc : 0 ≤ c) (hfit : b * r * c < 2147483648) :
    ((v.resize b r c).batchs = b ∧ (v.resize b r c).rows = r ∧ (v.resize b r c).cols = c ∧
      (v.resize b r c).size = ⟨b, r, c⟩ ∧
      ((v.resize b r c).data.length : Int) = b * r * c) ∧
    ((v.resize3 ⟨b, r, c⟩).batchs = b ∧ (v.resize3 ⟨b, r, c⟩).rows = r ∧
      (v.resize3 ⟨b, r, c⟩).cols = c ∧ (v.resize3 ⟨b, r, c⟩).size = ⟨b, r, c⟩ ∧
      ((v.resize3 ⟨b, r, c⟩).data.length : Int) = b * r * c) ∧
    ((w.resize b r c).batchs = b ∧ (w.resize b r c).rows = r ∧ (w.resize b r c).cols = c ∧
      (w.resize b r c).size = ⟨b, r, c⟩ ∧
      ((w.resize b r c).data.length : Int) = b * r * c) :=
  ⟨⟨rfl, rfl, rfl, rfl, resize_length v.data b r c hb hr hc hfit⟩,
   ⟨rfl, rfl, rfl, rfl, resize_length v.data b r c hb hr hc hfit⟩,
   ⟨rfl, rfl, rfl, rfl, resize_length w.data b r c hb hr hc hfit⟩⟩

/-- C7 at the all-zero shape, from a prior state of shape `3 × 2 × 2`: the
view reports the shape `(0, 0, 0)` and its buffer is empty. -/
theorem resize_sets_shape_and_length_witness :
    ((0 : Int) ≤ 0 ∧ (0 : Int) * 0 * 0 < 2147483648) ∧
    ((GArr3D.ctor_shape ⟨0, 0, 0, ⟨0, 0, 0⟩⟩ 3 2 2 : GArr3D Int).resize 0 0 0).size
      = ⟨0, 0, 0⟩ ∧
    ((((GArr3D.ctor_shape ⟨0, 0, 0, ⟨0, 0, 0⟩⟩ 3 2 2 : GArr3D Int).resize 0 0 0).data.length
      : Nat) : Int) = 0 * 0 * 0 ∧
    ((((CArr3D.ctor_shape ⟨0, 0, 0, ⟨0, 0, 0⟩⟩ 3 2 2 : CArr3D Int).resize 0 0 0).data.length
      : Nat) : Int) = 0 * 0 * 0 := by
  have h := resize_sets_shape_and_length (α := Int)
    (GArr3D.ctor_shape ⟨0, 0, 0, ⟨0, 0, 0⟩⟩ 3 2 2)
    (CArr3D.ctor_shape ⟨0, 0, 0, ⟨0, 0, 0⟩⟩ 3 2 2) 0 0 0
    (by decide) (by decide) (by decide) (by decide)
  exact ⟨by decide, h.1.2.2.2.1, h.1.2.2.2.2, h.2.2.2.2.2.2⟩

/-- C8, as stated, fails: a host view of shape `1 × 1 × 1` holding one element,
whose public member `size` holds `(7, 7, 7)`, has a buffer of
`batchs * rows * cols` elements, yet `gpu().cpu()` has `size = (1, 1, 1)`:
`assign` rebuilds `size` from the scalar members instead of copying it. -/
theorem gpu_cpu_rebuilds_size :
    ({ data := [5], batchs := 1, rows := 1, cols := 1, size := ⟨7, 7, 7⟩ }
      : CArr3D Int).shape_matches ∧
    ((({ data := [5], batchs := 1, rows := 1, cols := 1, size := ⟨7, 7, 7⟩ }
      : CArr3D Int).gpu ⟨0, 0, 0, ⟨0, 0, 0⟩⟩).cpu ⟨0, 0, 0, ⟨0, 0, 0⟩⟩).size = ⟨1, 1, 1⟩ ∧
    ((({ data := [5], batchs := 1, rows := 1, cols := 1, size := ⟨7, 7, 7⟩ }
      : CArr3D Int).gpu ⟨0, 0, 0, ⟨0, 0, 0⟩⟩).cpu ⟨0, 0, 0, ⟨0, 0, 0⟩⟩).size ≠
      ({ data := [5], batchs := 1, rows := 1, cols := 1, size := ⟨7, 7, 7⟩ }
        : CArr3D Int).size := by
  decide

/-- C8, amended: for every host 3D view `H`, `H.gpu().cpu()` has the same
`batchs`, `rows` and `cols` as `H` and the same buffer contents (the
linear-buffer `assign` copying its source exactly); its `size` is
`(batchs, rows, cols)`, which is the `size` of `H` exactly when the `size`
member of `H` is in step with `batchs`, `rows`, `cols`. -/
theorem gpu_cpu_round_trip {α : Type} (H : CArr3D α) (u u2 : Indeterminate) :
    ((H.gpu u).cpu u2).batchs = H.batchs ∧
    ((H.gpu u).cpu u2).rows = H.rows ∧
    ((H.gpu u).cpu u2).cols = H.cols ∧
    ((H.gpu u).cpu u2).data = H.data ∧
    ((H.gpu u).cpu u2).size = make_int3 H.batchs H.rows H.cols ∧
    (((H.gpu u).cpu u2).size = H.size ↔ H.size = make_int3 H.batchs H.rows H.cols) ∧
    (((H.gpu u).cpu u2) = H ↔ H.size = make_int3 H.batchs H.rows H.cols) := by
  refine ⟨rfl, rfl, rfl, rfl, rfl, ?_, ?_⟩
  · exact eq_comm
  · obtain ⟨data, batchs, rows, cols, size⟩ := H
    constructor
    · intro h
      have h2 := congrArg CArr3D.size h
      exact h2.symm
    · intro h
      simp only at h
      subst h
      rfl

/-- C9, as stated, fails: for the shape `2 × 65536 × 65536` and the batch index
`1`, the pointer offset `id * rows * cols` is formed in 32 bits and is `0`, not
`1 * 65536 * 65536`; likewise `index(1, 0, 0)` is `0`. -/
theorem batch_offset_wraps :
    ((GArr3D.ctor_shape ⟨0, 0, 0, ⟨0, 0, 0⟩⟩ 2 65536 65536 : GArr3D Int).batch 1).base = 0 ∧
    (GArr3D.ctor_shape ⟨0, 0, 0, ⟨0, 0, 0⟩⟩ 2 65536 65536 : GArr3D Int).index 1 0 0 = 0 ∧
    ((CArr3D.ctor_shape ⟨0, 0, 0, ⟨0, 0, 0⟩⟩ 2 65536 65536 : CArr3D Int).batch 1).base = 0 ∧
    (CArr3D.ctor_shape ⟨0, 0, 0, ⟨0, 0, 0⟩⟩ 2 65536 65536 : CArr3D Int).index 1 0 0 = 0 ∧
    (0 : Int) ≠ 1 * 65536 * 65536 + (0 * 65536 + 0) := by
  decide

theorem write_read_same {α : Type} (data : List α) (k k2 n : Nat) (x : α)
    (hk : k = k2) (hlt : k2 < n) (hlen : data.length = n) :
    (data.set k x)[k2]? = some x := by
  subst hk
  exact List.getElem?_set_self (by omega)

/-- C9, amended: for a 3D view (device or host) of shape
`batchs × rows × cols` with `rows, cols ≥ 0` and `batchs * rows * cols < 2^31`
and a batch index `b < batchs`, `view[b]` has the parent's `rows` and `cols`
and its base is the parent offset `b * rows * cols`; for `i < rows`,
`j < cols` the cell `(i, j)` of `view[b]`, at the 2D offset `i * cols + j` from
that base, is the parent cell `index(b, i, j)`; and when the buffer holds
`batchs * rows * cols` elements, a write through `view[b](i, j)` is read back
by `view(b, i, j)`. -/
theorem batch_aliases_parent {α : Type} (batchs rows cols : Int) (b : Nat)
    (hfit : batchs * rows * cols < 2147483648) (hr : 0 ≤ rows) (hc : 0 ≤ cols)
    (hb : (b : Int) < batchs) :
    (∀ v : GArr3D α, v.batchs = batchs → v.rows = rows → v.cols = cols →
      ((v.batch b).rows = rows ∧ (v.batch b).cols = cols ∧
        (((v.batch b).base : Nat) : Int) = b * rows * cols) ∧
      (∀ i j : Nat, (i : Int) < rows → (j : Int) < cols →
        (((v.batch b).base : Nat) : Int) + (v.batch b).offset i j = v.index b i j) ∧
      (v.shape_matches → ∀ (i j : Nat) (x : α), (i : Int) < rows → (j : Int) < cols →
        (v.write_through (v.batch b) i j x).get b i j = some x)) ∧
    (∀ w : CArr3D α, w.batchs = batchs → w.rows = rows → w.cols = cols →
      ((w.batch b).rows = rows ∧ (w.batch b).cols = cols ∧
        (((w.batch b).base : Nat) : Int) = b * rows * cols) ∧
      (∀ i j : Nat, (i : Int) < rows → (j : Int) < cols →
        (((w.batch b).base : Nat) : Int) + (w.batch b).offset i j = w.index b i j) ∧
      (w.shape_matches → ∀ (i j : Nat) (x : α), (i : Int) < rows → (j : Int) < cols →
        (w.write_through (w.batch b) i j x).get b i j = some x)) := by
  -- the shape as natural numbers
  obtain ⟨B, hB⟩ : ∃ B : Nat, batchs = (B : Int) := ⟨batchs.toNat, by omega⟩
  obtain ⟨R, hR⟩ : ∃ R : Nat, rows = (R : Int) := ⟨rows.toNat, by omega⟩
  obtain ⟨C, hC⟩ : ∃ C : Nat, cols = (C : Int) := ⟨cols.toNat, by omega⟩
  have hfitN : B * R * C < 2147483648 := by
    rw [hB, hR, hC] at hfit; exact_mod_cast hfit
  have hbN : b < B := by rw [hB] at hb; exact_mod_cast hb
  have hbase : batch_offset rows cols b = b * R * C :=
    batch_offset_exact rows cols B R C b hR hC hfitN hbN
  have hbaseZ : ((batch_offset rows cols b : Nat) : Int) = b * rows * cols := by
    rw [hbase, hR, hC]; push_cast; rfl
  have hcell : ∀ i j : Nat, (i : Int) < rows → (j : Int) < cols →
      offset_expr rows cols b i j = b * R * C + i * C + j ∧
        b * R * C + i * C + j < B * R * C := by
    intro i j hi hj
    have hiN : i < R := by rw [hR] at hi; exact_mod_cast hi
    have hjN : j < C := by rw [hC] at hj; exact_mod_cast hj
    have h := offset_expr_exact rows cols B R C b i j hR hC hfitN hbN hiN hjN
    exact ⟨h.1, h.2.2⟩
  have halias : ∀ i j : Nat, (i : Int) < rows → (j : Int) < cols →
      ((batch_offset rows cols b : Nat) : Int) + ((i : Int) * cols + (j : Int))
        = to_int32 (offset_expr rows cols b i j) := by
    intro i j hi hj
    obtain ⟨h1, h2⟩ := hcell i j hi hj
    rw [h1, to_int32_of_lt _ (by omega), hbase, hC]
    push_cast
    ring
  have hwr : ∀ (data : List α) (i j : Nat) (x : α),
      (data.length : Int) = batchs * rows * cols → (i : Int) < rows → (j : Int) < cols →
      (data.set (batch_offset rows cols b + ((i : Int) * cols + (j : Int)).toNat) x)[
        offset_expr rows cols b i j]? = some x := by
    intro data i j x hlen hi hj
    obtain ⟨h1, h2⟩ := hcell i j hi hj
    have hlenN : data.length = B * R * C := by
      rw [hB, hR, hC] at hlen; exact_mod_cast hlen
    have h3 : ((i : Int) * cols + (j : Int)).toNat = i * C + j := by
      rw [hC]
      have : ((i : Int) * (C : Int) + (j : Int)) = ((i * C + j : Nat) : Int) := by push_cast; rfl
      rw [this, Int.toNat_ofNat]
    refine write_read_same data _ _ (B * R * C) x ?_ ?_ hlenN
    · rw [h1, hbase, h3]; omega
    · rw [h1]; exact h2
  constructor
  · intro v h1 h2 h3
    refine ⟨⟨h2, h3, ?_⟩, ?_, ?_⟩
    · show ((batch_offset v.rows v.cols b : Nat) : Int) = b * rows * cols
      rw [h2, h3]; exact hbaseZ
    · intro i j hi hj
      show ((batch_offset v.rows v.cols b : Nat) : Int) + ((i : Int) * v.cols + (j : Int))
        = to_int32 (offset_expr v.rows v.cols b i j)
      rw [h2, h3]; exact halias i j hi hj
    · intro hsm i j x hi hj
      have hlen : (v.data.length : Int) = batchs * rows * cols := by
        rw [← h1, ← h2, ← h3]; exact hsm
      show (v.data.set (batch_offset v.rows v.cols b
        + ((i : Int) * v.cols + (j : Int)).toNat) x)[offset_expr v.rows v.cols b i j]? = some x
      rw [h2, h3]; exact hwr v.data i j x hlen hi hj
  · intro w h1 h2 h3
    refine ⟨⟨h2, h3, ?_⟩, ?_, ?_⟩
    · show ((batch_offset w.rows w.cols b : Nat) : Int) = b * rows * cols
      rw [h2, h3]; exact hbaseZ
    · intro i j hi hj
      show ((batch_offset w.rows w.cols b : Nat) : Int) + ((i : Int) * w.cols + (j : Int))
        = to_int32 (offset_expr w.rows w.cols b i j)
      rw [h2, h3]; exact halias i j hi hj
    · intro hsm i j x hi hj
      have hlen : (w.data.length : Int) = batchs * rows * cols := by
        rw [← h1, ← h2, ← h3]; exact hsm
      show (w.data.set (batch_offset w.rows w.cols b
        + ((i : Int) * w.cols + (j : Int)).toNat) x)[offset_expr w.rows w.cols b i j]? = some x
      rw [h2, h3]; exact hwr w.data i j x hlen hi hj

/-- C9, amended, at the shape `3 × 2 × 2` and the batch index `1`: the base of
`view[1]` is 4, and the value 42 written through `view[1](1, 1)` is read back
by `view(1, 1, 1)`, for the device view and for the host view. -/
theorem batch_aliases_parent_witness :
    ((3 : Int) * 2 * 2 < 2147483648 ∧ (0 : Int) ≤ 2 ∧ ((1 : Nat) : Int) < 3 ∧
      (GArr3D.ctor_shape ⟨0, 0, 0, ⟨0, 0, 0⟩⟩ 3 2 2 : GArr3D Int).shape_matches ∧
      (CArr3D.ctor_shape ⟨0, 0, 0, ⟨0, 0, 0⟩⟩ 3 2 2 : CArr3D Int).shape_matches) ∧
    ((((GArr3D.ctor_shape ⟨0, 0, 0, ⟨0, 0, 0⟩⟩ 3 2 2 : GArr3D Int).batch 1).base : Nat) : Int)
      = ((1 : Nat) : Int) * 2 * 2 ∧
    ((GArr3D.ctor_shape ⟨0, 0, 0, ⟨0, 0, 0⟩⟩ 3 2 2 : GArr3D Int).write_through
      ((GArr3D.ctor_shape ⟨0, 0, 0, ⟨0, 0, 0⟩⟩ 3 2 2 : GArr3D Int).batch 1) 1 1 42).get 1 1 1
      = some 42 ∧
    ((CArr3D.ctor_shape ⟨0, 0, 0, ⟨0, 0, 0⟩⟩ 3 2 2 : CArr3D Int).write_through
      ((CArr3D.ctor_shape ⟨0, 0, 0, ⟨0, 0, 0⟩⟩ 3 2 2 : CArr3D Int).batch 1) 1 1 42).get 1 1 1
      = some 42 := by
  have h := batch_aliases_parent (α := Int) 3 2 2 1 (by decide) (by decide) (by decide)
    (by decide)
  have hG := h.1 (GArr3D.ctor_shape ⟨0, 0, 0, ⟨0, 0, 0⟩⟩ 3 2 2) rfl rfl rfl
  have hC := h.2 (CArr3D.ctor_shape ⟨0, 0, 0, ⟨0, 0, 0⟩⟩ 3 2 2) rfl rfl rfl
  exact ⟨by decide, hG.1.2.2, hG.2.2 (by decide) 1 1 42 (by decide) (by decide),
    hC.2.2 (by decide) 1 1 42 (by decide) (by decide)⟩

end GNNBEM

/-! ## `div_round_up` as a ceiling quotient -/

namespace nwob

open Machine

/-- C18: for an unsigned type of modulus `m`, a divisor `> 0` and a value with
`val + divisor - 1` not wrapping, `div_round_up(val, divisor)` is the least `q`
with `q * divisor ≥ val`; hence for `0 < n` with `n + 127` not wrapping and
`ceil(n/128) < 2^32`, `n_blocks_linear(n) * 128 ≥ n > (n_blocks_linear(n) - 1) * 128`;
for `size_t` the bound on `ceil(n/128)` already excludes the wrap. -/
theorem div_round_up_is_ceiling (m val divisor n : Nat)
    (hd : 0 < divisor) (hwrap : val + divisor - 1 < m)
    (hn : 0 < n) (hfit : (n + 127) / 128 < 4294967296) :
    (val ≤ div_round_up m val divisor * divisor ∧
      ∀ q, val ≤ q * divisor → div_round_up m val divisor ≤ q) ∧
    (n + 127 < m →
      n ≤ n_blocks_linear m n * 128 ∧ (n_blocks_linear m n - 1) * 128 < n) ∧
    (n ≤ n_blocks_linear 18446744073709551616 n * 128 ∧
      (n_blocks_linear 18446744073709551616 n - 1) * 128 < n) := by
  have hgen : ∀ m2, n + 127 < m2 →
      n ≤ n_blocks_linear m2 n * 128 ∧ (n_blocks_linear m2 n - 1) * 128 < n := by
    intro m2 h
    unfold n_blocks_linear div_round_up n_threads_linear u32
    have h1 : 128 % m2 = 128 := Nat.mod_eq_of_lt (by omega)
    have h2 : n + 128 - 1 = n + 127 := by omega
    rw [h1, h2, Nat.mod_eq_of_lt h]
    omega
  refine ⟨⟨?_, ?_⟩, hgen m, hgen _ (by omega)⟩
  · unfold div_round_up
    rw [Nat.mod_eq_of_lt hwrap]
    exact (ceil_div_bounds val divisor hd).1
  · intro q hq
    unfold div_round_up
    rw [Nat.mod_eq_of_lt hwrap]
    have h3 := (ceil_div_bounds val divisor hd).2
    by_contra hlt
    have h4 : q + 1 ≤ (val + divisor - 1) / divisor := by omega
    have h5 : (q + 1) * divisor ≤ (val + divisor - 1) / divisor * divisor :=
      Nat.mul_le_mul_right divisor h4
    have h6 : (q + 1) * divisor = q * divisor + divisor := by ring
    omega

/-- C18 at concrete inputs: `div_round_up(1000, 128)` in `size_t` is 8, the
least `q` with `q * 128 ≥ 1000`, and 1000 elements need 8 blocks:
`8 * 128 ≥ 1000 > 7 * 128`. -/
theorem div_round_up_is_ceiling_witness :
    ((0 : Nat) < 128 ∧ 1000 + 128 - 1 < 18446744073709551616 ∧ (0 : Nat) < 1000 ∧
      (1000 + 127) / 128 < 4294967296) ∧
    (1000 ≤ div_round_up 18446744073709551616 1000 128 * 128 ∧
      ∀ q, 1000 ≤ q * 128 → div_round_up 18446744073709551616 1000 128 ≤ q) ∧
    (1000 ≤ n_blocks_linear 18446744073709551616 1000 * 128 ∧
      (n_blocks_linear 18446744073709551616 1000 - 1) * 128 < 1000) := by
  have h := div_round_up_is_ceiling 18446744073709551616 1000 128 1000 (by decide) (by decide)
    (by decide) (by decide)
  exact ⟨by decide, h.1, h.2.2⟩

/-- With a 32-bit count the sum `n + 127` can wrap although `ceil(n/128)` fits
in 32 bits: `n_blocks_linear<uint32_t>(2^32 - 1)` is 0. -/
theorem n_blocks_linear_uint32_wraps :
    (4294967295 + 127) / 128 < 4294967296 ∧ n_blocks_linear 4294967296 4294967295 = 0 := by
  decide

end nwob

/-! ## 3D views: offsets and shape members -/

namespace GNNBEM

open Machine

/-- Row-major offsets of in-range triples are distinct. -/
theorem offset_injective (R C b i j b2 i2 j2 : Nat)
    (hi : i < R) (hj : j < C) (hi2 : i2 < R) (hj2 : j2 < C)
    (h : b * R * C + i * C + j = b2 * R * C + i2 * C + j2) :
    b = b2 ∧ i = i2 ∧ j = j2 := by
  have e1 : b * R * C + i * C + j = j + C * (b * R + i) := by ring
  have e2 : b2 * R * C + i2 * C + j2 = j2 + C * (b2 * R + i2) := by ring
  have hC : 0 < C := by omega
  have hR : 0 < R := by omega
  have u1 := (Nat.div_mod_unique hC).2 ⟨e1.symm, hj⟩
  have u2 := (Nat.div_mod_unique hC).2 ⟨e2.symm, hj2⟩
  rw [h] at u1
  have hj' : j = j2 := u1.2.symm.trans u2.2
  have hq : b * R + i = b2 * R + i2 := u1.1.symm.trans u2.1
  have e3 : i + R * b = b * R + i := by ring
  have e4 : i2 + R * b2 = b2 * R + i2 := by ring
  have v1 := (Nat.div_mod_unique hR).2 ⟨e3, hi⟩
  have v2 := (Nat.div_mod_unique hR).2 ⟨e4, hi2⟩
  rw [hq] at v1
  exact ⟨v1.1.symm.trans v2.1, v1.2.symm.trans v2.2, hj'⟩

/-- Every offset below `B * R * C` is the row-major offset of an in-range
triple. -/
theorem offset_surjective (B R C o : Nat) (ho : o < B * R * C) :
    ∃ b i j, b < B ∧ i < R ∧ j < C ∧ b * R * C + i * C + j = o := by
  have hC : 0 < C := by
    rcases Nat.eq_zero_or_pos C with h | h
    · subst h; simp at ho
    · exact h
  have hR : 0 < R := by
    rcases Nat.eq_zero_or_pos R with h | h
    · subst h; simp at ho
    · exact h
  refine ⟨o / C / R, o / C % R, o % C, ?_, Nat.mod_lt _ hR, Nat.mod_lt _ hC, ?_⟩
  · rw [Nat.div_lt_iff_lt_mul hR, Nat.div_lt_iff_lt_mul hC]
    exact ho
  · have h1 : o / C / R * R + o / C % R = o / C := Nat.div_add_mod' _ _
    have h2 : o / C * C + o % C = o := Nat.div_add_mod' _ _
    calc o / C / R * R * C + o / C % R * C + o % C
        = (o / C / R * R + o / C % R) * C + o % C := by ring
      _ = o := by rw [h1, h2]

/-- C16, as stated, fails for negative extents: the view built by
`GArr3D(-2, -3, 1)` (likewise `CArr3D(-2, -3, 1)`) has
`batchs * rows * cols = 6 < 2^31` and a buffer of 6 elements, but no triple is
in range (`0 ≤ b < -2` has no solution), so the offset 0 of `[0, 6)` is the
offset of no in-range triple. -/
theorem negative_extents_have_no_cells :
    ((GArr3D.ctor_shape ⟨0, 0, 0, ⟨0, 0, 0⟩⟩ (-2) (-3) 1 : GArr3D Int).shape_matches ∧
      (GArr3D.ctor_shape ⟨0, 0, 0, ⟨0, 0, 0⟩⟩ (-2) (-3) 1 : GArr3D Int).batchs *
        (GArr3D.ctor_shape ⟨0, 0, 0, ⟨0, 0, 0⟩⟩ (-2) (-3) 1 : GArr3D Int).rows *
        (GArr3D.ctor_shape ⟨0, 0, 0, ⟨0, 0, 0⟩⟩ (-2) (-3) 1 : GArr3D Int).cols = 6 ∧
      ¬ ∃ b i j : Nat,
        (b : Int) < (GArr3D.ctor_shape ⟨0, 0, 0, ⟨0, 0, 0⟩⟩ (-2) (-3) 1 : GArr3D Int).batchs ∧
        (i : Int) < (GArr3D.ctor_shape ⟨0, 0, 0, ⟨0, 0, 0⟩⟩ (-2) (-3) 1 : GArr3D Int).rows ∧
        (j : Int) < (GArr3D.ctor_shape ⟨0, 0, 0, ⟨0, 0, 0⟩⟩ (-2) (-3) 1 : GArr3D Int).cols ∧
        (GArr3D.ctor_shape ⟨0, 0, 0, ⟨0, 0, 0⟩⟩ (-2) (-3) 1 : GArr3D Int).index b i j = 0) ∧
    ((CArr3D.ctor_shape ⟨0, 0, 0, ⟨0, 0, 0⟩⟩ (-2) (-3) 1 : CArr3D Int).shape_matches ∧
      (CArr3D.ctor_shape ⟨0, 0, 0, ⟨0, 0, 0⟩⟩ (-2) (-3) 1 : CArr3D Int).batchs *
        (CArr3D.ctor_shape ⟨0, 0, 0, ⟨0, 0, 0⟩⟩ (-2) (-3) 1 : CArr3D Int).rows *
        (CArr3D.ctor_shape ⟨0, 0, 0, ⟨0, 0, 0⟩⟩ (-2) (-3) 1 : CArr3D Int).cols = 6 ∧
      ¬ ∃ b i j : Nat,
        (b : Int) < (CArr3D.ctor_shape ⟨0, 0, 0, ⟨0, 0, 0⟩⟩ (-2) (-3) 1 : CArr3D Int).batchs ∧
        (i : Int) < (CArr3D.ctor_shape ⟨0, 0, 0, ⟨0, 0, 0⟩⟩ (-2) (-3) 1 : CArr3D Int).rows ∧
        (j : Int) < (CArr3D.ctor_shape ⟨0, 0, 0, ⟨0, 0, 0⟩⟩ (-2) (-3) 1 : CArr3D Int).cols ∧
        (CArr3D.ctor_shape ⟨0, 0, 0, ⟨0, 0, 0⟩⟩ (-2) (-3) 1 : CArr3D Int).index b i j = 0) := by
  refine ⟨⟨by decide, by decide, ?_⟩, ⟨by decide, by decide, ?_⟩⟩
  · rintro ⟨b, i, j, hb, _, _, _⟩
    have h : (GArr3D.ctor_shape ⟨0, 0, 0, ⟨0, 0, 0⟩⟩ (-2) (-3) 1 : GArr3D Int).batchs = -2 := rfl
    rw [h] at hb
    omega
  · rintro ⟨b, i, j, hb, _, _, _⟩
    have h : (CArr3D.ctor_shape ⟨0, 0, 0, ⟨0, 0, 0⟩⟩ (-2) (-3) 1 : CArr3D Int).batchs = -2 := rfl
    rw [h] at hb
    omega

/-- C16, amended: for a shape `B × R × C` with non-negative extents and
`B * R * C < 2^31` (device or host view), `index(b, i, j)` of an in-range
triple lies in `[0, B * R * C)`, so the element access `operator()` stays
inside a buffer of `B * R * C` elements; two in-range triples with the same
offset are the same triple; and every offset in `[0, B * R * C)` is the offset
of an in-range triple. -/
theorem index_bijective {α : Type} (B R C : Nat) (hfit : B * R * C < 2147483648) :
    (∀ v : GArr3D α, v.batchs = (B : Int) → v.rows = (R : Int) → v.cols = (C : Int) →
      (∀ b i j : Nat, b < B → i < R → j < C →
        0 ≤ v.index b i j ∧ v.index b i j < ((B * R * C : Nat) : Int) ∧
        (v.shape_matches → ∃ x, v.get b i j = some x)) ∧
      (∀ b i j b2 i2 j2 : Nat, b < B → i < R → j < C → b2 < B → i2 < R → j2 < C →
        v.index b i j = v.index b2 i2 j2 → b = b2 ∧ i = i2 ∧ j = j2) ∧
      (∀ o : Nat, o < B * R * C →
        ∃ b i j : Nat, b < B ∧ i < R ∧ j < C ∧ v.index b i j = (o : Int))) ∧
    (∀ w : CArr3D α, w.batchs = (B : Int) → w.rows = (R : Int) → w.cols = (C : Int) →
      (∀ b i j : Nat, b < B → i < R → j < C →
        0 ≤ w.index b i j ∧ w.index b i j < ((B * R * C : Nat) : Int) ∧
        (w.shape_matches → ∃ x, w.get b i j = some x)) ∧
      (∀ b i j b2 i2 j2 : Nat, b < B → i < R → j < C → b2 < B → i2 < R → j2 < C →
        w.index b i j = w.index b2 i2 j2 → b = b2 ∧ i = i2 ∧ j = j2) ∧
      (∀ o : Nat, o < B * R * C →
        ∃ b i j : Nat, b < B ∧ i < R ∧ j < C ∧ w.index b i j = (o : Int))) := by
  -- facts about the shared offset expression
  have key : ∀ (rows cols : Int), rows = (R : Int) → cols = (C : Int) →
      ∀ b i j : Nat, b < B → i < R → j < C →
        offset_expr rows cols b i j = b * R * C + i * C + j ∧
        b * R * C + i * C + j < B * R * C ∧
        to_int32 (offset_expr rows cols b i j) = ((b * R * C + i * C + j : Nat) : Int) := by
    intro rows cols hR hC b i j hb hi hj
    obtain ⟨h1, _, h3⟩ := offset_expr_exact rows cols B R C b i j hR hC hfit hb hi hj
    exact ⟨h1, h3, by rw [h1, to_int32_of_lt _ (by omega)]⟩
  have part1 : ∀ (rows cols : Int) (data : List α), rows = (R : Int) → cols = (C : Int) →
      ∀ b i j : Nat, b < B → i < R → j < C →
        0 ≤ to_int32 (offset_expr rows cols b i j) ∧
        to_int32 (offset_expr rows cols b i j) < ((B * R * C : Nat) : Int) ∧
        ((data.length : Int) = (B : Int) * R * C →
          ∃ x, data[offset_expr rows cols b i j]? = some x) := by
    intro rows cols data hR hC b i j hb hi hj
    obtain ⟨h1, h2, h3⟩ := key rows cols hR hC b i j hb hi hj
    refine ⟨by rw [h3]; exact Int.natCast_nonneg _, by rw [h3]; exact_mod_cast h2, ?_⟩
    intro hlen
    have hlenN : data.length = B * R * C := by exact_mod_cast hlen
    have hlt : offset_expr rows cols b i j < data.length := by rw [h1, hlenN]; exact h2
    exact ⟨data[offset_expr rows cols b i j], List.getElem?_eq_getElem hlt⟩
  have part2 : ∀ (rows cols : Int), rows = (R : Int) → cols = (C : Int) →
      ∀ b i j b2 i2 j2 : Nat, b < B → i < R → j < C → b2 < B → i2 < R → j2 < C →
        to_int32 (offset_expr rows cols b i j) = to_int32 (offset_expr rows cols b2 i2 j2) →
        b = b2 ∧ i = i2 ∧ j = j2 := by
    intro rows cols hR hC b i j b2 i2 j2 hb hi hj hb2 hi2 hj2 h
    rw [(key rows cols hR hC b i j hb hi hj).2.2,
      (key rows cols hR hC b2 i2 j2 hb2 hi2 hj2).2.2] at h
    exact offset_injective R C b i j b2 i2 j2 hi hj hi2 hj2 (by exact_mod_cast h)
  have part3 : ∀ (rows cols : Int), rows = (R : Int) → cols = (C : Int) →
      ∀ o : Nat, o < B * R * C →
        ∃ b i j : Nat, b < B ∧ i < R ∧ j < C ∧
          to_int32 (offset_expr rows cols b i j) = (o : Int) := by
    intro rows cols hR hC o ho
    obtain ⟨b, i, j, hb, hi, hj, h⟩ := offset_surjective B R C o ho
    exact ⟨b, i, j, hb, hi, hj, by rw [(key rows cols hR hC b i j hb hi hj).2.2, h]⟩
  constructor
  · intro v hB hR hC
    refine ⟨?_, part2 v.rows v.cols hR hC, part3 v.rows v.cols hR hC⟩
    intro b i j hb hi hj
    obtain ⟨h1, h2, h3⟩ := part1 v.rows v.cols v.data hR hC b i j hb hi hj
    refine ⟨h1, h2, ?_⟩
    intro hsm
    apply h3
    have : (v.data.length : Int) = v.batchs * v.rows * v.cols := hsm
    rw [this, hB, hR, hC]
  · intro w hB hR hC
    refine ⟨?_, part2 w.rows w.cols hR hC, part3 w.rows w.cols hR hC⟩
    intro b i j hb hi hj
    obtain ⟨h1, h2, h3⟩ := part1 w.rows w.cols w.data hR hC b i j hb hi hj
    refine ⟨h1, h2, ?_⟩
    intro hsm
    apply h3
    have : (w.data.length : Int) = w.batchs * w.rows * w.cols := hsm
    rw [this, hB, hR, hC]

/-- C16, amended, at the shape `3 × 2 × 2`: the triple `(2, 1, 1)` has an offset in
`[0, 12)` and its element exists, and the offset 11 is the offset of an
in-range triple, for the device view and for the host view. -/
theorem index_bijective_witness :
    (3 * 2 * 2 < 2147483648 ∧
      (GArr3D.ctor_shape ⟨0, 0, 0, ⟨0, 0, 0⟩⟩ 3 2 2 : GArr3D Int).shape_matches ∧
      (CArr3D.ctor_shape ⟨0, 0, 0, ⟨0, 0, 0⟩⟩ 3 2 2 : CArr3D Int).shape_matches) ∧
    ((GArr3D.ctor_shape ⟨0, 0, 0, ⟨0, 0, 0⟩⟩ 3 2 2 : GArr3D Int).index 2 1 1
        < ((3 * 2 * 2 : Nat) : Int) ∧
      ∃ x, (GArr3D.ctor_shape ⟨0, 0, 0, ⟨0, 0, 0⟩⟩ 3 2 2 : GArr3D Int).get 2 1 1 = some x) ∧
    (∃ b i j : Nat, b < 3 ∧ i < 2 ∧ j < 2 ∧
      (CArr3D.ctor_shape ⟨0, 0, 0, ⟨0, 0, 0⟩⟩ 3 2 2 : CArr3D Int).index b i j
        = ((11 : Nat) : Int)) := by
  have h := index_bijective (α := Int) 3 2 2 (by decide)
  have hG := h.1 (GArr3D.ctor_shape ⟨0, 0, 0, ⟨0, 0, 0⟩⟩ 3 2 2) rfl rfl rfl
  have hC := h.2 (CArr3D.ctor_shape ⟨0, 0, 0, ⟨0, 0, 0⟩⟩ 3 2 2) rfl rfl rfl
  have h1 := hG.1 2 1 1 (by decide) (by decide) (by decide)
  exact ⟨by decide, ⟨h1.2.1, h1.2.2 (by decide)⟩, hC.2.2 11 (by decide)⟩

/-- C17: after every `resize` and every `assign` (and the constructors built
on them) of a `GArr3D` or `CArr3D`, the member `size` equals
`(batchs, rows, cols)` component for component; `clear`, `reset` and
`reset_minus_one` change neither `size` nor `batchs`, `rows`, `cols`. -/
theorem size_in_step {α : Type} [Inhabited α] [Zero α] [One α] [Neg α]
    (v A : GArr3D α) (w H : CArr3D α) (b r c : Int) (s : int3) (u : Indeterminate) :
    -- resize and the constructors built on it
    ((v.resize b r c).size = ⟨(v.resize b r c).batchs, (v.resize b r c).rows,
        (v.resize b r c).cols⟩ ∧
      (v.resize3 s).size = ⟨(v.resize3 s).batchs, (v.resize3 s).rows, (v.resize3 s).cols⟩ ∧
      (w.resize b r c).size = ⟨(w.resize b r c).batchs, (w.resize b r c).rows,
        (w.resize b r c).cols⟩ ∧
      (GArr3D.ctor u : GArr3D α).size = ⟨(GArr3D.ctor u : GArr3D α).batchs,
        (GArr3D.ctor u : GArr3D α).rows, (GArr3D.ctor u : GArr3D α).cols⟩ ∧
      (GArr3D.ctor_shape u b r c : GArr3D α).size =
        ⟨(GArr3D.ctor_shape u b r c : GArr3D α).batchs,
          (GArr3D.ctor_shape u b r c : GArr3D α).rows,
          (GArr3D.ctor_shape u b r c : GArr3D α).cols⟩ ∧
      (CArr3D.ctor_shape u b r c : CArr3D α).size =
        ⟨(CArr3D.ctor_shape u b r c : CArr3D α).batchs,
          (CArr3D.ctor_shape u b r c : CArr3D α).rows,
          (CArr3D.ctor_shape u b r c : CArr3D α).cols⟩) ∧
    -- assign and the constructors built on it
    ((v.assign A).size = ⟨(v.assign A).batchs, (v.assign A).rows, (v.assign A).cols⟩ ∧
      (v.assign_host H).size =
        ⟨(v.assign_host H).batchs, (v.assign_host H).rows, (v.assign_host H).cols⟩ ∧
      (w.assign A).size = ⟨(w.assign A).batchs, (w.assign A).rows, (w.assign A).cols⟩ ∧
      (GArr3D.ctor_host u H).size = ⟨(GArr3D.ctor_host u H).batchs,
        (GArr3D.ctor_host u H).rows, (GArr3D.ctor_host u H).cols⟩ ∧
      (CArr3D.ctor_device u A).size = ⟨(CArr3D.ctor_device u A).batchs,
        (CArr3D.ctor_device u A).rows, (CArr3D.ctor_device u A).cols⟩) ∧
    -- clear, reset, reset_minus_one on a device view
    ((v.clear.size = v.size ∧ v.clear.batchs = v.batchs ∧ v.clear.rows = v.rows ∧
        v.clear.cols = v.cols) ∧
      (v.reset.size = v.size ∧ v.reset.batchs = v.batchs ∧ v.reset.rows = v.rows ∧
        v.reset.cols = v.cols) ∧
      (v.reset_minus_one.size = v.size ∧ v.reset_minus_one.batchs = v.batchs ∧
        v.reset_minus_one.rows = v.rows ∧ v.reset_minus_one.cols = v.cols)) ∧
    -- clear, reset, reset_minus_one on a host view
    ((w.clear.size = w.size ∧ w.clear.batchs = w.batchs ∧ w.clear.rows = w.rows ∧
        w.clear.cols = w.cols) ∧
      (w.reset.size = w.size ∧ w.reset.batchs = w.batchs ∧ w.reset.rows = w.rows ∧
        w.reset.cols = w.cols) ∧
      (w.reset_minus_one.size = w.size ∧ w.reset_minus_one.batchs = w.batchs ∧
        w.reset_minus_one.rows = w.rows ∧ w.reset_minus_one.cols = w.cols)) :=
  ⟨⟨rfl, rfl, rfl, rfl, rfl, rfl⟩, ⟨rfl, rfl, rfl, rfl, rfl⟩,
   ⟨⟨rfl, rfl, rfl, rfl⟩, ⟨rfl, rfl, rfl, rfl⟩, ⟨rfl, rfl, rfl, rfl⟩⟩,
   ⟨⟨rfl, rfl, rfl, rfl⟩, ⟨rfl, rfl, rfl, rfl⟩, ⟨rfl, rfl, rfl, rfl⟩⟩⟩

/-! ## `assign` as a snapshot copy -/

/-- C14, as stated, fails on `size`: for a device view `A` of shape
`1 × 1 × 1` holding one element, whose public member `size` holds `(7, 7, 7)`,
the destination of `B.assign(A)` gets `size = (1, 1, 1)`, not the `size` of
`A`; likewise for a host source and for a host destination. -/
theorem assign_rebuilds_size :
    ((GArr3D.ctor ⟨0, 0, 0, ⟨0, 0, 0⟩⟩ : GArr3D Int).assign
        { data := [5], batchs := 1, rows := 1, cols := 1, size := ⟨7, 7, 7⟩ }).size
      = ⟨1, 1, 1⟩ ∧
    ((GArr3D.ctor ⟨0, 0, 0, ⟨0, 0, 0⟩⟩ : GArr3D Int).assign
        { data := [5], batchs := 1, rows := 1, cols := 1, size := ⟨7, 7, 7⟩ }).size
      ≠ ({ data := [5], batchs := 1, rows := 1, cols := 1, size := ⟨7, 7, 7⟩ }
          : GArr3D Int).size ∧
    ((GArr3D.ctor ⟨0, 0, 0, ⟨0, 0, 0⟩⟩ : GArr3D Int).assign_host
        { data := [5], batchs := 1, rows := 1, cols := 1, size := ⟨7, 7, 7⟩ }).size
      ≠ ({ data := [5], batchs := 1, rows := 1, cols := 1, size := ⟨7, 7, 7⟩ }
          : CArr3D Int).size ∧
    ((CArr3D.ctor ⟨0, 0, 0, ⟨0, 0, 0⟩⟩ : CArr3D Int).assign
        { data := [5], batchs := 1, rows := 1, cols := 1, size := ⟨7, 7, 7⟩ }).size
      ≠ ({ data := [5], batchs := 1, rows := 1, cols := 1, size := ⟨7, 7, 7⟩ }
          : GArr3D Int).size := by
  decide

/-- On objects, each `assign` gives the destination the view that the by-value
`assign` computes from the view of the source at the call. -/
theorem assign_view {α : Type} (m : Memory α) (A B : GArr3DObj) (H W : CArr3DObj) :
    (B.assign A m).1.view (B.assign A m).2 = (B.view m).assign (A.view m) ∧
    (B.assign_host H m).1.view (B.assign_host H m).2 = (B.view m).assign_host (H.view m) ∧
    (W.assign A m).1.view (W.assign A m).2 = (W.view m).assign (A.view m) := by
  refine ⟨?_, ?_, ?_⟩
  · simp [GArr3DObj.assign, GArr3DObj.view, GArr3D.assign, Memory.assign_device_device]
  · simp [GArr3DObj.assign_host, GArr3DObj.view, CArr3DObj.view, GArr3D.assign_host,
      Memory.assign_device_host]
  · simp [CArr3DObj.assign, GArr3DObj.view, CArr3DObj.view, CArr3D.assign,
      Memory.assign_host_device]

/-- On objects, `resize`, `clear` and the element write give the object the
view that the by-value member computes from its view before. -/
theorem mutator_view {α : Type} [Inhabited α] (m : Memory α) (A : GArr3DObj) (H : CArr3DObj)
    (b r c : Int) (bi i j : Nat) (x : α) :
    ((A.resize b r c m).1.view (A.resize b r c m).2 = (A.view m).resize b r c ∧
      (A.clear m).1.view (A.clear m).2 = (A.view m).clear ∧
      (A.put bi i j x m).1.view (A.put bi i j x m).2 = (A.view m).put bi i j x) ∧
    ((H.resize b r c m).1.view (H.resize b r c m).2 = (H.view m).resize b r c ∧
      (H.clear m).1.view (H.clear m).2 = (H.view m).clear ∧
      (H.put bi i j x m).1.view (H.put bi i j x m).2 = (H.view m).put bi i j x) := by
  refine ⟨⟨?_, ?_, ?_⟩, ⟨?_, ?_, ?_⟩⟩
  · simp [GArr3DObj.resize, GArr3DObj.view, GArr3D.resize, Memory.store_device]
  · simp [GArr3DObj.clear, GArr3DObj.view, GArr3D.clear, Memory.store_device]
  · simp [GArr3DObj.put, GArr3DObj.view, GArr3D.put, Memory.store_device]
  · simp [CArr3DObj.resize, CArr3DObj.view, CArr3D.resize, Memory.store_host]
  · simp [CArr3DObj.clear, CArr3DObj.view, CArr3D.clear, Memory.store_host]
  · simp [CArr3DObj.put, CArr3DObj.view, CArr3D.put, Memory.store_host]

/-- C14, amended: with the buffers placed in memory and the linear buffer's
`assign` a deep copy, for each of the three `assign` members and a source `A`
whose buffer is not the buffer of the destination `B`: after `B.assign(A)`
the destination has the `batchs`, `rows` and `cols` of `A`, its `size` is
`(A.batchs, A.rows, A.cols)` (the `size` of `A` exactly when that is in step),
and its buffer holds the elements of `A` as they were at the call; the view of
`A` is unchanged by the call; and a later `resize`, `clear` or element write
on `A` leaves the view of `B` (shape and contents) unchanged. -/
theorem assign_snapshot {α : Type} [Inhabited α] (m : Memory α) (A B : GArr3DObj)
    (H W : CArr3DObj) (hAB : A.data ≠ B.data) (b r c : Int) (bi i j : Nat) (x : α) :
    -- device destination, device source
    (∀ B2 m2, B.assign A m = (B2, m2) →
      (B2.batchs = A.batchs ∧ B2.rows = A.rows ∧ B2.cols = A.cols ∧
        B2.size = make_int3 A.batchs A.rows A.cols ∧
        (B2.size = A.size ↔ A.size = make_int3 A.batchs A.rows A.cols) ∧
        (B2.view m2).data = (A.view m).data) ∧
      A.view m2 = A.view m ∧
      (B2.view (A.resize b r c m2).2 = B2.view m2 ∧
        B2.view (A.clear m2).2 = B2.view m2 ∧
        B2.view (A.put bi i j x m2).2 = B2.view m2)) ∧
    -- device destination, host source
    (∀ B2 m2, B.assign_host H m = (B2, m2) →
      (B2.batchs = H.batchs ∧ B2.rows = H.rows ∧ B2.cols = H.cols ∧
        B2.size = make_int3 H.batchs H.rows H.cols ∧
        (B2.size = H.size ↔ H.size = make_int3 H.batchs H.rows H.cols) ∧
        (B2.view m2).data = (H.view m).data) ∧
      H.view m2 = H.view m ∧
      (B2.view (H.resize b r c m2).2 = B2.view m2 ∧
        B2.view (H.clear m2).2 = B2.view m2 ∧
        B2.view (H.put bi i j x m2).2 = B2.view m2)) ∧
    -- host destination, device source
    (∀ W2 m2, W.assign A m = (W2, m2) →
      (W2.batchs = A.batchs ∧ W2.rows = A.rows ∧ W2.cols = A.cols ∧
        W2.size = make_int3 A.batchs A.rows A.cols ∧
        (W2.size = A.size ↔ A.size = make_int3 A.batchs A.rows A.cols) ∧
        (W2.view m2).data = (A.view m).data) ∧
      A.view m2 = A.view m ∧
      (W2.view (A.resize b r c m2).2 = W2.view m2 ∧
        W2.view (A.clear m2).2 = W2.view m2 ∧
        W2.view (A.put bi i j x m2).2 = W2.view m2)) := by
  have hBA : B.data ≠ A.data := fun e => hAB e.symm
  refine ⟨?_, ?_, ?_⟩
  · intro B2 m2 h
    simp only [GArr3DObj.assign, Prod.mk.injEq] at h
    obtain ⟨h1, h2⟩ := h
    subst h1 h2
    refine ⟨⟨rfl, rfl, rfl, rfl, eq_comm, ?_⟩, ?_, ?_, ?_, ?_⟩
    · simp [GArr3DObj.view, Memory.assign_device_device, LinearBuffer.assign]
    · simp [GArr3DObj.view, Memory.assign_device_device, Function.update_noteq hAB]
    · simp [GArr3DObj.view, GArr3DObj.resize, Memory.store_device, Function.update_noteq hBA]
    · simp [GArr3DObj.view, GArr3DObj.clear, Memory.store_device, Function.update_noteq hBA]
    · simp [GArr3DObj.view, GArr3DObj.put, Memory.store_device, Function.update_noteq hBA]
  · intro B2 m2 h
    simp only [GArr3DObj.assign_host, Prod.mk.injEq] at h
    obtain ⟨h1, h2⟩ := h
    subst h1 h2
    refine ⟨⟨rfl, rfl, rfl, rfl, eq_comm, ?_⟩, ?_, ?_, ?_, ?_⟩
    · simp [GArr3DObj.view, CArr3DObj.view, Memory.assign_device_host, LinearBuffer.assign]
    · simp [CArr3DObj.view, Memory.assign_device_host]
    · simp [GArr3DObj.view, CArr3DObj.resize, Memory.store_host]
    · simp [GArr3DObj.view, CArr3DObj.clear, Memory.store_host]
    · simp [GArr3DObj.view, CArr3DObj.put, Memory.store_host]
  · intro W2 m2 h
    simp only [CArr3DObj.assign, Prod.mk.injEq] at h
    obtain ⟨h1, h2⟩ := h
    subst h1 h2
    refine ⟨⟨rfl, rfl, rfl, rfl, eq_comm, ?_⟩, ?_, ?_, ?_, ?_⟩
    · simp [GArr3DObj.view, CArr3DObj.view, Memory.assign_host_device, LinearBuffer.assign]
    · simp [GArr3DObj.view, Memory.assign_host_device]
    · simp [CArr3DObj.view, GArr3DObj.resize, Memory.store_device]
    · simp [CArr3DObj.view, GArr3DObj.clear, Memory.store_device]
    · simp [CArr3DObj.view, GArr3DObj.put, Memory.store_device]


/-- C14, amended, at a concrete memory: the device object `A` at address 0
holds the elements `[1, 2]` with the shape `1 × 1 × 2`, the device object `B`
is at address 1.  After `B.assign(A)` and then `A.clear()`, `B` still holds
`[1, 2]` with the shape `1 × 1 × 2`, while `A` holds no element. -/
theorem assign_snapshot_witness :
    ((⟨0, 1, 1, 2, ⟨1, 1, 2⟩⟩ : GArr3DObj).data ≠ (⟨1, 0, 0, 0, ⟨0, 0, 0⟩⟩ : GArr3DObj).data) ∧
    (((⟨1, 0, 0, 0, ⟨0, 0, 0⟩⟩ : GArr3DObj).assign ⟨0, 1, 1, 2, ⟨1, 1, 2⟩⟩
        (⟨fun a => if a = 0 then [1, 2] else [], fun _ => []⟩ : Memory Int)).1.view
      ((⟨0, 1, 1, 2, ⟨1, 1, 2⟩⟩ : GArr3DObj).clear
        ((⟨1, 0, 0, 0, ⟨0, 0, 0⟩⟩ : GArr3DObj).assign ⟨0, 1, 1, 2, ⟨1, 1, 2⟩⟩
          (⟨fun a => if a = 0 then [1, 2] else [], fun _ => []⟩ : Memory Int)).2).2).data
      = [1, 2] ∧
    (((⟨1, 0, 0, 0, ⟨0, 0, 0⟩⟩ : GArr3DObj).assign ⟨0, 1, 1, 2, ⟨1, 1, 2⟩⟩
        (⟨fun a => if a = 0 then [1, 2] else [], fun _ => []⟩ : Memory Int)).1.view
      ((⟨0, 1, 1, 2, ⟨1, 1, 2⟩⟩ : GArr3DObj).clear
        ((⟨1, 0, 0, 0, ⟨0, 0, 0⟩⟩ : GArr3DObj).assign ⟨0, 1, 1, 2, ⟨1, 1, 2⟩⟩
          (⟨fun a => if a = 0 then [1, 2] else [], fun _ => []⟩ : Memory Int)).2).2).cols
      = 2 ∧
    ((⟨0, 1, 1, 2, ⟨1, 1, 2⟩⟩ : GArr3DObj).view
      ((⟨0, 1, 1, 2, ⟨1, 1, 2⟩⟩ : GArr3DObj).clear
        ((⟨1, 0, 0, 0, ⟨0, 0, 0⟩⟩ : GArr3DObj).assign ⟨0, 1, 1, 2, ⟨1, 1, 2⟩⟩
          (⟨fun a => if a = 0 then [1, 2] else [], fun _ => []⟩ : Memory Int)).2).2).data
      = [] := by
  have h := (assign_snapshot
    (⟨fun a => if a = 0 then [1, 2] else [], fun _ => []⟩ : Memory Int)
    ⟨0, 1, 1, 2, ⟨1, 1, 2⟩⟩ ⟨1, 0, 0, 0, ⟨0, 0, 0⟩⟩ ⟨0, 0, 0, 0, ⟨0, 0, 0⟩⟩
    ⟨0, 0, 0, 0, ⟨0, 0, 0⟩⟩ (by decide) 0 0 0 0 0 0 0).1
    ((⟨1, 0, 0, 0, ⟨0, 0, 0⟩⟩ : GArr3DObj).assign ⟨0, 1, 1, 2, ⟨1, 1, 2⟩⟩
      (⟨fun a => if a = 0 then [1, 2] else [], fun _ => []⟩ : Memory Int)).1
    ((⟨1, 0, 0, 0, ⟨0, 0, 0⟩⟩ : GArr3DObj).assign ⟨0, 1, 1, 2, ⟨1, 1, 2⟩⟩
      (⟨fun a => if a = 0 then [1, 2] else [], fun _ => []⟩ : Memory Int)).2 rfl
  exact ⟨by decide, (congrArg GArr3D.data h.2.2.2.1).trans (h.1.2.2.2.2.2.trans rfl),
    (congrArg GArr3D.cols h.2.2.2.1).trans h.1.2.2.1, by decide⟩

/-- The condition on the buffers is needed: when the source and the
destination are one object (`B.assign(B)`), a later `clear()` on the source is
a `clear()` on the destination, which then holds no element. -/
theorem shared_buffer_is_not_a_snapshot :
    (((⟨0, 1, 1, 2, ⟨1, 1, 2⟩⟩ : GArr3DObj).assign ⟨0, 1, 1, 2, ⟨1, 1, 2⟩⟩
        (⟨fun a => if a = 0 then [1, 2] else [], fun _ => []⟩ : Memory Int)).1.view
      ((⟨0, 1, 1, 2, ⟨1, 1, 2⟩⟩ : GArr3DObj).assign ⟨0, 1, 1, 2, ⟨1, 1, 2⟩⟩
        (⟨fun a => if a = 0 then [1, 2] else [], fun _ => []⟩ : Memory Int)).2).data
      = [1, 2] ∧
    (((⟨0, 1, 1, 2, ⟨1, 1, 2⟩⟩ : GArr3DObj).assign ⟨0, 1, 1, 2, ⟨1, 1, 2⟩⟩
        (⟨fun a => if a = 0 then [1, 2] else [], fun _ => []⟩ : Memory Int)).1.view
      ((⟨0, 1, 1, 2, ⟨1, 1, 2⟩⟩ : GArr3DObj).clear
        ((⟨0, 1, 1, 2, ⟨1, 1, 2⟩⟩ : GArr3DObj).assign ⟨0, 1, 1, 2, ⟨1, 1, 2⟩⟩
          (⟨fun a => if a = 0 then [1, 2] else [], fun _ => []⟩ : Memory Int)).2).2).data
      = [] := by
  decide

/-! ## The host print format -/

theorem concat_writes_map_some {β : Type} (f : β → List Char) (l : List β) :
    concat_writes (l.map (fun a => some (f a))) = some (l.flatMap f) := by
  induction l with
  | nil => rfl
  | cons a l ih =>
    simp only [List.map_cons, concat_writes, ih, Option.map_some', List.flatMap_cons]

/-- Reading `C` consecutive cells from offset `s` of a buffer that holds them
all gives the cells `data[s], ..., data[s + C - 1]` in order. -/
theorem row_writes {α : Type} (g : α → List Char) (data : List α) (C : Nat) :
    ∀ s : Nat, s + C ≤ data.length →
      concat_writes ((List.range C).map (fun k => (data[s + k]?).map g))
        = some (((data.drop s).take C).flatMap g) := by
  induction C with
  | zero => intro s _; rfl
  | succ C ih =>
    intro s hs
    have hlt : s < data.length := by omega
    have ih2 := ih (s + 1) (by omega)
    have hmap : (List.range C).map (fun k => (data[s + 1 + k]?).map g)
        = (List.map Nat.succ (List.range C)).map (fun k => (data[s + k]?).map g) := by
      rw [List.map_map]
      apply List.map_congr_left
      intro k _
      have : s + 1 + k = s + Nat.succ k := by omega
      simp only [Function.comp, this]
    rw [List.range_succ_eq_map, List.map_cons, ← hmap, List.drop_eq_getElem_cons hlt,
      List.take_succ_cons, List.flatMap_cons]
    have h0 : data[s + 0]? = some data[s] := List.getElem?_eq_getElem hlt
    rw [h0]
    simp only [Option.map_some', concat_writes, ih2]

theorem lines_append_endl (l rest : List Char) (h : endl ∉ l) :
    lines (l ++ endl :: rest) = l :: lines rest := by
  induction l with
  | nil => simp only [List.nil_append, lines, if_true]
  | cons c l ih =>
    have hc : c ≠ endl := fun e => h (by rw [e]; exact List.mem_cons_self _ _)
    have hl : endl ∉ l := fun e => h (List.mem_cons_of_mem _ e)
    rw [List.cons_append, lines, if_neg hc, ih hl]

theorem lines_unlines (ls : List (List Char)) (h : ∀ l ∈ ls, endl ∉ l) :
    lines (unlines ls) = ls := by
  induction ls with
  | nil => rfl
  | cons l ls ih =>
    have h1 : unlines (l :: ls) = l ++ endl :: unlines ls := by
      simp only [unlines, List.flatMap_cons, List.append_assoc, List.singleton_append]
    rw [h1, lines_append_endl l _ (h l (List.mem_cons_self _ _)),
      ih (fun x hx => h x (List.mem_cons_of_mem _ hx))]

theorem unlines_append (l1 l2 : List (List Char)) :
    unlines (l1 ++ l2) = unlines l1 ++ unlines l2 := by
  simp only [unlines, List.flatMap_append]

theorem unlines_map {β : Type} (f : β → List Char) (l : List β) :
    unlines (l.map f) = l.flatMap (fun a => f a ++ [endl]) := by
  induction l with
  | nil => rfl
  | cons a l ih =>
    have h1 : unlines (f a :: l.map f) = (f a ++ [endl]) ++ unlines (l.map f) := by
      simp only [unlines, List.flatMap_cons]
    rw [List.map_cons, h1, ih, List.flatMap_cons]

theorem unlines_flatMap {β : Type} (f : β → List (List Char)) (l : List β) :
    unlines (l.flatMap f) = l.flatMap (fun a => unlines (f a)) := by
  induction l with
  | nil => rfl
  | cons a l ih =>
    rw [List.flatMap_cons, unlines_append, ih, List.flatMap_cons]

theorem endl_not_mem_row_text {α : Type} (fmt : α → List Char) (hfmt : ∀ x, endl ∉ fmt x)
    (cells : List α) : endl ∉ row_text fmt cells := by
  unfold row_text
  rw [List.mem_flatMap]
  rintro ⟨x, _, hx⟩
  rw [List.mem_append, List.mem_singleton] at hx
  rcases hx with hx | hx
  · exact hfmt x hx
  · exact absurd hx (by decide)

theorem endl_not_mem_dump_lines {α : Type} (fmt : α → List Char) (hfmt : ∀ x, endl ∉ fmt x)
    (data : List α) (B R C : Nat) : ∀ l ∈ dump_lines fmt data B R C, endl ∉ l := by
  intro l hl
  unfold dump_lines at hl
  rw [List.mem_flatMap] at hl
  obtain ⟨b, _, hb⟩ := hl
  rw [List.mem_append, List.mem_map, List.mem_singleton] at hb
  rcases hb with ⟨i, _, rfl⟩ | rfl
  · exact endl_not_mem_row_text fmt hfmt _
  · exact List.not_mem_nil _

theorem row_end_le (B R C b i : Nat) (hb : b < B) (hi : i < R) :
    (b * R + i) * C + C ≤ B * R * C := by
  have h1 : (b + 1) * R ≤ B * R := Nat.mul_le_mul_right R hb
  have h2 : (b + 1) * R = b * R + R := by ring
  have h3 : (b * R + i + 1) * C ≤ B * R * C := Nat.mul_le_mul_right C (by omega)
  have h4 : (b * R + i + 1) * C = (b * R + i) * C + C := by ring
  omega

/-- One row of the dump: the reads of row `i` of batch `b` are all defined and
give the cells of that row in order, each followed by a space. -/
theorem print_row {α : Type} (fmt : α → List Char) (mat : CArr3D α) (B R C : Nat)
    (hR : mat.rows = (R : Int)) (hC : mat.cols = (C : Int))
    (hlen : mat.data.length = B * R * C) (hfit : B * R * C < 2147483648)
    (b i : Nat) (hb : b < B) (hi : i < R) :
    concat_writes ((List.range C).map fun k =>
        (mat.get b i k).map (fun x => fmt x ++ [space]))
      = some (row_text fmt (row_cells mat.data R C b i)) := by
  have hcongr : (List.range C).map (fun k => (mat.get b i k).map (fun x => fmt x ++ [space]))
      = (List.range C).map
          (fun k => (mat.data[(b * R + i) * C + k]?).map (fun x => fmt x ++ [space])) := by
    apply List.map_congr_left
    intro k hk
    rw [List.mem_range] at hk
    have h := (offset_expr_exact mat.rows mat.cols B R C b i k hR hC hfit hb hi hk).1
    have h2 : b * R * C + i * C + k = (b * R + i) * C + k := by ring
    unfold CArr3D.get
    rw [h, h2]
  rw [hcongr, row_writes _ mat.data C ((b * R + i) * C)
    (by rw [hlen]; exact row_end_le B R C b i hb hi)]
  rfl

/-- C15, as stated, fails on a view that does not hold its elements: after
`clear()` a host view built with the shape `1 × 1 × 1` still has
`batchs = rows = cols = 1` and an empty buffer, so `operator<<` reads
`mat(0, 0, 0)` outside the buffer and no text is defined. -/
theorem print_of_cleared_view_undefined :
    (CArr3D.ctor_shape ⟨0, 0, 0, ⟨0, 0, 0⟩⟩ 1 1 1 : CArr3D (Fin 10)).clear.batchs = 1 ∧
    (CArr3D.ctor_shape ⟨0, 0, 0, ⟨0, 0, 0⟩⟩ 1 1 1 : CArr3D (Fin 10)).clear.data = [] ∧
    (CArr3D.ctor_shape ⟨0, 0, 0, ⟨0, 0, 0⟩⟩ 1 1 1 : CArr3D (Fin 10)).clear.get 0 0 0 = none ∧
    CArr3D.print (fun d : Fin 10 => [Char.ofNat (48 + d.val)])
      (CArr3D.ctor_shape ⟨0, 0, 0, ⟨0, 0, 0⟩⟩ 1 1 1 : CArr3D (Fin 10)).clear = none := by
  decide

/-- C15, amended: for a host 3D view of shape `B × R × C` with non-negative
extents that holds its `B * R * C < 2^31` elements, and an element format that
writes no newline,
`operator<<` writes a text whose lines are, batch after batch, the `R` rows of
the batch in order, each row on one line with its `C` elements in column
order (every element followed by one space), and one empty line after the
rows of each batch. -/
theorem print_format {α : Type} (fmt : α → List Char) (mat : CArr3D α) (B R C : Nat)
    (hB : mat.batchs = (B : Int)) (hR : mat.rows = (R : Int)) (hC : mat.cols = (C : Int))
    (hlen : mat.data.length = B * R * C) (hfit : B * R * C < 2147483648)
    (hfmt : ∀ x, endl ∉ fmt x) :
    mat.print fmt = some (unlines (dump_lines fmt mat.data B R C)) ∧
    ∀ text, mat.print fmt = some text → lines text = dump_lines fmt mat.data B R C := by
  have hrows : ∀ b, b < B →
      concat_writes ((List.range R).map fun j =>
        (concat_writes ((List.range C).map fun k =>
          (mat.get b j k).map (fun x => fmt x ++ [space]))).map (fun row => row ++ [endl]))
      = some (unlines ((List.range R).map
          (fun i => row_text fmt (row_cells mat.data R C b i)))) := by
    intro b hb
    have hcongr : ((List.range R).map fun j =>
        (concat_writes ((List.range C).map fun k =>
          (mat.get b j k).map (fun x => fmt x ++ [space]))).map (fun row => row ++ [endl]))
        = (List.range R).map
            (fun j => some (row_text fmt (row_cells mat.data R C b j) ++ [endl])) := by
      apply List.map_congr_left
      intro j hj
      rw [List.mem_range] at hj
      rw [print_row fmt mat B R C hR hC hlen hfit b j hb hj]
      rfl
    rw [hcongr, concat_writes_map_some, unlines_map]
  have hprint : mat.print fmt = some (unlines (dump_lines fmt mat.data B R C)) := by
    unfold CArr3D.print
    rw [hB, hR, hC]
    simp only [Int.toNat_ofNat]
    have hcongr : ((List.range B).map fun i =>
        (concat_writes ((List.range R).map fun j =>
          (concat_writes ((List.range C).map fun k =>
            (mat.get i j k).map (fun x => fmt x ++ [space]))).map
              (fun row => row ++ [endl]))).map (fun batch => batch ++ [endl]))
        = (List.range B).map (fun b => some (unlines ((List.range R).map
            (fun i => row_text fmt (row_cells mat.data R C b i))) ++ [endl])) := by
      apply List.map_congr_left
      intro b hb
      rw [List.mem_range] at hb
      rw [hrows b hb]
      rfl
    rw [hcongr, concat_writes_map_some]
    unfold dump_lines
    rw [unlines_flatMap]
    congr 2
    funext b
    rw [unlines_append]
    rfl
  refine ⟨hprint, ?_⟩
  intro text ht
  rw [hprint] at ht
  have ht2 : unlines (dump_lines fmt mat.data B R C) = text := Option.some.inj ht
  rw [← ht2]
  exact lines_unlines _ (endl_not_mem_dump_lines fmt hfmt mat.data B R C)

/-- C15, amended, at the shape `2 × 2 × 2` with the digits 1 to 8 as elements, each
written as its decimal digit: the text has the lines `1 2 `, `3 4 `, an empty
line, `5 6 `, `7 8 ` and an empty line. -/
theorem print_format_witness :
    ((2 : Nat) * 2 * 2 < 2147483648 ∧
      (∀ x : Fin 10, endl ∉ [Char.ofNat (48 + x.val)])) ∧
    CArr3D.print (fun d : Fin 10 => [Char.ofNat (48 + d.val)])
        { data := [1, 2, 3, 4, 5, 6, 7, 8], batchs := 2, rows := 2, cols := 2,
          size := ⟨2, 2, 2⟩ }
      = some (unlines (dump_lines (fun d : Fin 10 => [Char.ofNat (48 + d.val)])
          [1, 2, 3, 4, 5, 6, 7, 8] 2 2 2)) ∧
    dump_lines (fun d : Fin 10 => [Char.ofNat (48 + d.val)]) [1, 2, 3, 4, 5, 6, 7, 8] 2 2 2
      = [['1', ' ', '2', ' '], ['3', ' ', '4', ' '], [],
         ['5', ' ', '6', ' '], ['7', ' ', '8', ' '], []] :=
  ⟨⟨by decide, by decide⟩,
   (print_format (fun d : Fin 10 => [Char.ofNat (48 + d.val)])
      { data := [1, 2, 3, 4, 5, 6, 7, 8], batchs := 2, rows := 2, cols := 2,
        size := ⟨2, 2, 2⟩ } 2 2 2 rfl rfl rfl rfl (by decide) (by decide)).1,
   by decide⟩

end GNNBEM
